import Mathlib

/-!
Verification development for the openapi-zod repository.

The TypeScript sources are shallowly embedded in Lean:

* `Json` models the plain JS objects/arrays the generator emits (OpenAPI
  nodes).  JS objects are insertion-ordered string-keyed records, modelled
  as association lists with overwrite-in-place assignment (`aset`), which
  is exactly the semantics of `obj[k] = v` and of spread `{...a, ...b}`.
* `Zod` models the zod schema graph as introspected by the generator and
  the router (the constructors correspond to the `Zod*` classes the code
  dispatches on via `isZodType` / `instanceof`).
* The generator (`src/generator/openapi_generator.ts`, provided as
  `src/unnamed/part_005`) is embedded in the `OpenapiGenerator` namespace.
* The router (`src/src/openapi_server.ts`) is embedded in the
  `OpenapiRouter` namespace.

Keys that never hold a value (`undefined` in JS) are simply absent from the
modelled records, which makes lodash's `omitBy(_, isNil)` the identity; the
embedding constructs each node with exactly the keys the source leaves
after `omitBy`.
-/

/-- JSON-like values: the plain JS data the generator manipulates.
Objects are insertion-ordered association lists, numbers are integers
(all numbers appearing in the modelled code are integral). -/
inductive Json where
  | jnull : Json
  | jbool : Bool → Json
  | jnum : Int → Json
  | jstr : String → Json
  | jarr : List Json → Json
  | jobj : List (String × Json) → Json
deriving BEq, Repr

/-- Association-list lookup: `m[k]`, yielding `undefined` (`none`) when the
key is absent.  Models property access on a JS record. -/
def alookup {α : Type} (m : List (String × α)) (k : String) : Option α :=
  (m.find? (fun p => p.1 = k)).map (·.2)

/-- Association-list assignment `m[k] = v`: overwrites in place when the key
exists (JS keeps the original key position), appends otherwise. -/
def aset {α : Type} (m : List (String × α)) (k : String) (v : α) : List (String × α) :=
  if m.any (fun p => p.1 = k) then
    m.map (fun p => if p.1 = k then (k, v) else p)
  else
    m ++ [(k, v)]

/-- JS object spread `{...a, ...b}`: assign every entry of `b` over `a`. -/
def amerge {α : Type} (a b : List (String × α)) : List (String × α) :=
  b.foldl (fun acc kv => aset acc kv.1 kv.2) a

/-- Object.fromEntries: build a record from pairs, later entries winning. -/
def fromEntries {α : Type} (l : List (String × α)) : List (String × α) :=
  amerge [] l

/-- Fields of a JS value when it is an object, `{}`-like empty otherwise. -/
def Json.fields : Json → List (String × Json)
  | .jobj fs => fs
  | _ => []

/-- Property access `j[k]` on a JSON value. -/
def Json.get (j : Json) (k : String) : Option Json :=
  alookup j.fields k

/-- An optional record field: present exactly when the value is, used to
build objects the way the source leaves them after `omitBy(_, isNil)`. -/
def optField (k : String) : Option Json → List (String × Json)
  | some v => [(k, v)]
  | none => []

mutual

/-- Structural (deep) equality of JSON values.  Modelled from the spec:
the generator's inheritance diffing compares property nodes by "structural
equality, not identity" (lodash-style `objectEquals` from `lib/lodash.ts`,
which is not among the staged sources). -/
def jeq : Json → Json → Bool
  | Json.jnull, Json.jnull => true
  | Json.jbool a, Json.jbool b => a == b
  | Json.jnum a, Json.jnum b => a == b
  | Json.jstr a, Json.jstr b => a == b
  | Json.jarr xs, Json.jarr ys => jeqList xs ys
  | Json.jobj xs, Json.jobj ys => jeqPairs xs ys
  | _, _ => false

/-- Pointwise structural equality of JSON arrays. -/
def jeqList : List Json → List Json → Bool
  | [], [] => true
  | x :: xs, y :: ys => jeq x y && jeqList xs ys
  | _, _ => false

/-- Pointwise structural equality of JSON object field lists. -/
def jeqPairs : List (String × Json) → List (String × Json) → Bool
  | [], [] => true
  | (k1, v1) :: xs, (k2, v2) :: ys => k1 == k2 && jeq v1 v2 && jeqPairs xs ys
  | _, _ => false

end

/-- Modelled from the spec: `objectEquals` on possibly-missing values —
two missing values are equal, a missing and a present one are not,
present values are compared structurally. -/
def objectEquals : Option Json → Option Json → Bool
  | some a, some b => jeq a b
  | none, none => true
  | _, _ => false

/-- lodash `compact` on a list of optional strings: drops `undefined` and
the falsy empty string. -/
def compactS (l : List (Option String)) : List String :=
  (l.filterMap id).filter (fun s => s ≠ "")

/-- ASCII lowercasing of a name, character by character.  Models the
byte-lowercasing the WHATWG Fetch `Headers` class applies to header names
(platform behaviour the router relies on). -/
def lowerName (s : String) : String :=
  ⟨s.data.map Char.toLower⟩

/-- ASCII uppercasing of a name; models JS `String.prototype.toUpperCase`
as applied to HTTP method names (which are ASCII). -/
def upperName (s : String) : String :=
  ⟨s.data.map Char.toUpper⟩

/-- The opening brace character of a path-template placeholder. -/
def lbrace : Char := Char.ofNat 123

/-- The closing brace character of a path-template placeholder. -/
def rbrace : Char := Char.ofNat 125

/-- Split a character list at a separator (no separator ⇒ one piece). -/
def segsAux (sep : Char) : List Char → List Char → List String
  | [], acc => [⟨acc.reverse⟩]
  | c :: cs, acc =>
    if c = sep then (⟨acc.reverse⟩ : String) :: segsAux sep cs []
    else segsAux sep cs (c :: acc)

/-- Split a path on `/` into its segments (as `String.splitOn "/"` and the
URLPattern segmenting both do). -/
def splitOnSlash (s : String) : List String := segsAux '/' s.data []

/-- Parameter metadata attached by `.openapi({ param: {...} })`
(the `param` field of `ZodOpenapiMetadata` in `src/src/zod.ts`).
`loc` models the `in` field (a Lean keyword). -/
structure PMeta where
  name : Option String := none
  loc : Option String := none
  description : Option String := none
deriving Repr

/-- `ZodOpenapiMetadata` from `src/src/zod.ts`: `refId`, `extendedFrom`,
`param`, plus the `SchemaObject` fields the modelled schemas use
(`description`, `type`, `format`, `example`). -/
structure OMeta where
  refId : Option String := none
  extendedFrom : Option String := none
  param : Option PMeta := none
  description : Option String := none
  mtype : Option String := none
  format : Option String := none
  exampleVal : Option Json := none
deriving Repr

instance : Inhabited OMeta := ⟨{}⟩

/-- The part of every zod `_def` the embedding needs: the `openapi`
metadata and the `description`. -/
structure DefCommon where
  openapi : Option OMeta := none
  descr : Option String := none
deriving Repr

instance : Inhabited DefCommon := ⟨{}⟩

/-- Effect kind of a `ZodEffects` wrapper (`_def.effect.type`). -/
inductive EffKind where
  | refinement
  | preprocess
  | transform
deriving DecidableEq, Repr

/-- `_unknownKeys` of a `ZodObject`. -/
inductive UnknownKeys where
  | passthrough
  | strict
  | strip
deriving DecidableEq, Repr

/-- The zod schema graph, as introspected by the generator and router.
Each constructor corresponds to a `Zod*` class of zod v3.21.4; the first
argument is the shared `_def` data (openapi metadata, description).
`zdate` (`ZodDate`) has no conversion rule in the generator and therefore
exercises the `UnknownZodTypeError` fallthrough, as in the source. -/
inductive Zod where
  | znull : DefCommon → Zod
  | zstring : DefCommon → (isUUID isEmail isURL : Bool) → (pattern : Option String) → Zod
  | znumber : DefCommon → (isInt : Bool) → (minValue maxValue : Option Int) → Zod
  | zboolean : DefCommon → Zod
  | zliteral : DefCommon → Json → Zod
  | zenum : DefCommon → List String → Zod
  | zobject : DefCommon → List (String × Zod) → UnknownKeys → Zod
  | zarray : DefCommon → Zod → (minLength maxLength : Option Int) → Zod
  | zunion : DefCommon → List Zod → Zod
  | zdiscUnion : DefCommon → String → List Zod → Zod
  | zintersection : DefCommon → Zod → Zod → Zod
  | zrecord : DefCommon → Zod → Zod
  | zunknown : DefCommon → Zod
  | zdate : DefCommon → Zod
  | zoptional : DefCommon → Zod → Zod
  | znullable : DefCommon → Zod → Zod
  | zdefault : DefCommon → Zod → Zod
  | zeffects : DefCommon → EffKind → Zod → Zod

/-- The `_def` data shared by every schema node. -/
def Zod.defc : Zod → DefCommon
  | .znull d => d
  | .zstring d _ _ _ _ => d
  | .znumber d _ _ _ => d
  | .zboolean d => d
  | .zliteral d _ => d
  | .zenum d _ => d
  | .zobject d _ _ => d
  | .zarray d _ _ _ => d
  | .zunion d _ => d
  | .zdiscUnion d _ _ => d
  | .zintersection d _ _ => d
  | .zrecord d _ => d
  | .zunknown d => d
  | .zdate d => d
  | .zoptional d _ => d
  | .znullable d _ => d
  | .zdefault d _ => d
  | .zeffects d _ _ => d

/-- Rebuild a schema node with updated `_def` data; models zod's
`.openapi(...)` creating `new this.constructor({...this._def, openapi})`. -/
def Zod.mapDefc (f : DefCommon → DefCommon) : Zod → Zod
  | .znull d => .znull (f d)
  | .zstring d a b c p => .zstring (f d) a b c p
  | .znumber d i mn mx => .znumber (f d) i mn mx
  | .zboolean d => .zboolean (f d)
  | .zliteral d v => .zliteral (f d) v
  | .zenum d vs => .zenum (f d) vs
  | .zobject d sh u => .zobject (f d) sh u
  | .zarray d it mn mx => .zarray (f d) it mn mx
  | .zunion d os => .zunion (f d) os
  | .zdiscUnion d t os => .zdiscUnion (f d) t os
  | .zintersection d l r => .zintersection (f d) l r
  | .zrecord d v => .zrecord (f d) v
  | .zunknown d => .zunknown (f d)
  | .zdate d => .zdate (f d)
  | .zoptional d i => .zoptional (f d) i
  | .znullable d i => .znullable (f d) i
  | .zdefault d i => .zdefault (f d) i
  | .zeffects d e i => .zeffects (f d) e i

/-- `zodSchema.isOptional()` of zod v3.21.4 (`safeParse(undefined).success`),
for the modelled constructors: optional/default/unknown accept `undefined`,
wrappers defer to their inner schema, everything else rejects it. -/
def Zod.isOptional : Zod → Bool
  | .zoptional _ _ => true
  | .zdefault _ _ => true
  | .zunknown _ => true
  | .znullable _ i => i.isOptional
  | .zeffects _ _ i => i.isOptional
  | _ => false

/-- `zodSchema.isNullable()` of zod v3.21.4 (`safeParse(null).success`),
for the modelled constructors (union nullability is not needed by any
modelled schema and is conservatively `false`). -/
def Zod.isNullable : Zod → Bool
  | .znullable _ _ => true
  | .znull _ => true
  | .zunknown _ => true
  | .zliteral _ v => jeq v Json.jnull
  | .zoptional _ i => i.isNullable
  | .zdefault _ i => i.isNullable
  | .zeffects _ _ i => i.isNullable
  | _ => false

namespace OpenapiRouter

/-- Structured validation issues carried by a zod `ZodError` (its `errors`
array); the embedding keeps the individual issues abstract as strings. -/
structure ZodError where
  errors : List String := []
deriving DecidableEq, Repr

/-- Runtime values flowing through the router's validation pipeline:
`undef` is JS `undefined` (missing key), `vnull` is JS `null` (the value
`searchParams.get` returns for a missing key), `str`/`strList` are the raw
inputs read from the URL and headers, `json` is a parsed JSON body, and
`stream` stands for the unread `request.body` stream used when no body
schema is declared. -/
inductive V where
  | undef
  | vnull
  | str : String → V
  | strList : List String → V
  | json : Json → V
  | stream
deriving BEq, Repr

/-- A zod schema as the router uses it: the introspectable schema tree
(`ast`, consumed by the `instanceof` checks of
`src/runtime/request.ts` = `src/unnamed/part_001`) together with its
black-box `safeParse` behaviour (`parse`), the capability the spec assigns
to the external validation library. -/
structure ZodRT where
  ast : Zod
  parse : V → Except ZodError V

/-- One entry of `extractRequestQuerySchema`'s result
(`OpenapiRequestQueryKeySchema`). -/
structure QuerySchemaRT where
  key : String
  schema : ZodRT
  isArray : Bool

/-- unwrapZodType from `src/runtime/request.ts`: strips `ZodOptional`,
`ZodNullable`, `ZodDefault` and refinement-type `ZodEffects` wrappers;
every other node — notably preprocess-type `ZodEffects` — is returned
as-is. -/
def unwrapZodType : Zod → Zod
  | .zoptional _ i => unwrapZodType i
  | .znullable _ i => unwrapZodType i
  | .zdefault _ i => unwrapZodType i
  | .zeffects d e i =>
    match e with
    | .refinement => unwrapZodType i
    | _ => .zeffects d e i
  | z => z

/-- instanceof ZodArray. -/
def isZodArray : Zod → Bool
  | .zarray _ _ _ _ => true
  | _ => false

/-- A route config as the router consumes it (`OpenapiRouteConfig`):
`request?.params` etc. are flattened to one optional association list per
channel (`Object.entries` of the record), and the request body is the
declared content map. -/
structure SrvConfig where
  method : String
  path : String
  reqParams : Option (List (String × ZodRT)) := none
  reqQuery : Option (List (String × ZodRT)) := none
  reqHeaders : Option (List (String × ZodRT)) := none
  reqBodyContent : Option (List (String × Sum ZodRT Json)) := none

/-- extractRequestParamsSchema: `Object.entries(config.request?.params)`. -/
def extractRequestParamsSchema (c : SrvConfig) : Option (List (String × ZodRT)) :=
  c.reqParams

/-- extractRequestQuerySchema: each query key is classified as an array
exactly when unwrapping its schema reaches a `ZodArray`. -/
def extractRequestQuerySchema (c : SrvConfig) : Option (List QuerySchemaRT) :=
  c.reqQuery.map (List.map (fun kv =>
    { key := kv.1, schema := kv.2, isArray := isZodArray (unwrapZodType kv.2.ast) }))

/-- extractRequestHeadersSchema: `Object.entries(config.request?.headers)`. -/
def extractRequestHeadersSchema (c : SrvConfig) : Option (List (String × ZodRT)) :=
  c.reqHeaders

/-- extractRequestBodySchema: the `application/json` entry of the declared
body content, provided it is a zod schema (not a raw spec object). -/
def extractRequestBodySchema (c : SrvConfig) : Option ZodRT :=
  match c.reqBodyContent with
  | some content =>
    match alookup content "application/json" with
    | some (Sum.inl sch) => some sch
    | _ => none
  | none => none

/-- Is a path-template segment a `\x7bname\x7d` placeholder?  The embedding
models templates whose placeholders span whole `/`-separated segments,
which is the form every route in the repository uses. -/
def isParamSeg (s : String) : Bool :=
  decide (3 ≤ s.data.length) && s.data.head? == some lbrace && s.data.getLast? == some rbrace

/-- The placeholder's name: the segment text between the braces. -/
def segName (s : String) : String := ⟨(s.data.drop 1).dropLast⟩

/-- Does the template contain a placeholder?  Models the source's
`path !== path.replaceAll(/\x7b([^\x7d]+)\x7d/g, ":$1")` test. -/
def containsPlaceholder (path : String) : Bool :=
  (splitOnSlash path).any isParamSeg

/-- A compiled template segment. -/
inductive Seg where
  | lit : String → Seg
  | param : String → Seg
deriving DecidableEq, Repr

/-- Compile a path template into segments (the URLPattern built from
`path.replaceAll(/\x7b([^\x7d]+)\x7d/g, ":$1")`). -/
def parseTemplate (path : String) : List Seg :=
  (splitOnSlash path).map (fun s =>
    if isParamSeg s then Seg.param (segName s) else Seg.lit s)

/-- URLPattern matching of compiled segments against the pathname's
segments: a literal segment must match exactly, a `:name` placeholder
captures one non-empty segment. -/
def segMatch : List Seg → List String → Option (List (String × String))
  | [], [] => some []
  | Seg.lit s :: ts, x :: xs => if x = s then segMatch ts xs else none
  | Seg.param n :: ts, x :: xs =>
    if x = "" then none else (segMatch ts xs).map (fun g => (n, x) :: g)
  | _, _ => none

/-- urlPattern.test(url). -/
def patternTest (tmpl pathname : String) : Bool :=
  (segMatch (parseTemplate tmpl) (splitOnSlash pathname)).isSome

/-- urlPattern.exec(url).pathname.groups. -/
def patternExec (tmpl pathname : String) : Option (List (String × String)) :=
  segMatch (parseTemplate tmpl) (splitOnSlash pathname)

/-- One registered route (`OpenapiRoute`): the schemas extracted at
registration time plus whether a `urlPattern` was attached.  The handler
itself stays abstract — `handle` returns the context that would be passed
to it.  The optional per-route `validationErrorHandler` is not modelled:
a `validationError` result below stands for the call
`validationErrorHandler(source, error)`, whichever handler is in effect. -/
structure Route where
  path : String
  hasUrlPattern : Bool
  paramSchemas : Option (List (String × ZodRT)) := none
  querySchemas : Option (List QuerySchemaRT) := none
  headerSchemas : Option (List (String × ZodRT)) := none
  bodySchema : Option ZodRT := none

/-- Build the route record the private `method` helper of `OpenapiRouter`
constructs before calling `addRoute`: `urlPattern` is attached exactly when
the path contains a placeholder. -/
def mkRoute (c : SrvConfig) : Route :=
  { path := c.path
    hasUrlPattern := containsPlaceholder c.path
    querySchemas := extractRequestQuerySchema c
    paramSchemas := extractRequestParamsSchema c
    headerSchemas := extractRequestHeadersSchema c
    bodySchema := extractRequestBodySchema c }

/-- The per-method dispatch structure of `routesByUppercasedMethodMap`. -/
structure MethodRoutes where
  byPathTemplate : List (String × Route) := []
  byPath : List (String × Route) := []
  patternList : List Route := []

/-- The router's dispatch table. -/
structure RouterState where
  routesByUppercasedMethod : List (String × MethodRoutes) := []

/-- addRoute from `src/src/openapi_server.ts`: group by uppercased method;
store the route under its path template; a route with a `urlPattern` is
appended to the pattern list, one without is stored in the exact-path map.
(The side effect of re-registering the path on the registry is not part of
the dispatch state and is omitted.) -/
def addRoute (st : RouterState) (method : String) (route : Route) : RouterState :=
  let u := upperName method
  let routes := (alookup st.routesByUppercasedMethod u).getD {}
  let routes := { routes with byPathTemplate := aset routes.byPathTemplate route.path route }
  let routes :=
    if route.hasUrlPattern then
      { routes with patternList := routes.patternList ++ [route] }
    else
      { routes with byPath := aset routes.byPath route.path route }
  { st with routesByUppercasedMethod := aset st.routesByUppercasedMethod u routes }

/-- An incoming request as `handle` consumes it: `searchParams` lists the
query key/value pairs in URL order, `headers` the header name/value pairs
as sent, and `jsonBody` is the outcome of `await request.json()` —
`Except.error ()` models the `SyntaxError` thrown on a malformed JSON
body. -/
structure Req where
  method : String
  pathname : String
  searchParams : List (String × String) := []
  headers : List (String × String) := []
  jsonBody : Except Unit V := Except.error ()

/-- The observable outcome of `OpenapiRouter.handle`:
`notFound` is the 404 response; `validationError source error` is the
response produced by the validation error handler for that channel;
`success` carries the validated context handed to the route handler
(params/query/headers entries in validation order, plus the body);
`thrown` marks an exception propagating out of `handle` (no response). -/
inductive HandleResult where
  | notFound
  | validationError (source : String) (error : ZodError)
  | success (params query headers : List (String × V)) (body : V)
  | thrown
deriving Repr

/-- searchParams.getAll(key): every value for the key, in order. -/
def queryGetAll (sp : List (String × String)) (k : String) : List String :=
  (sp.filter (fun p => p.1 = k)).map (·.2)

/-- searchParams.get(key): the first value, or `null`. -/
def queryGet (sp : List (String × String)) (k : String) : Option String :=
  (sp.find? (fun p => p.1 = k)).map (·.2)

/-- The raw value the router hands to a query schema's `safeParse`
(line `const rawValue = isArray ? searchParams.getAll(key) :
searchParams.get(key)`). -/
def queryRawValue (sp : List (String × String)) (q : QuerySchemaRT) : V :=
  if q.isArray then V.strList (queryGetAll sp q.key)
  else
    match queryGet sp q.key with
    | some s => V.str s
    | none => V.vnull

/-- Object.fromEntries(request.headers.entries()): the WHATWG `Headers`
iterator yields names byte-lowercased, so the parsed header record is
keyed by the lowercased names of the headers as sent. -/
def parsedHeaders (hs : List (String × String)) : List (String × String) :=
  fromEntries (hs.map (fun p => (lowerName p.1, p.2)))

/-- Captured path-parameter lookup: a missing capture validates as
`undefined`. -/
def lookupParamV (params : List (String × String)) (k : String) : V :=
  match alookup params k with
  | some s => V.str s
  | none => V.undef

/-- Declared-header lookup in the parsed (lowercased-name) header record:
the declared key is used verbatim; a miss validates as `undefined`. -/
def lookupHeaderV (hmap : List (String × String)) (k : String) : V :=
  match alookup hmap k with
  | some s => V.str s
  | none => V.undef

/-- One validation loop of `handle`: validate each declared key in order
against its raw value, accumulating the validated outputs, stopping at the
first failure. -/
def validateAll (schemas : List (String × ZodRT)) (raw : String → V) :
    Except ZodError (List (String × V)) :=
  match schemas with
  | [] => Except.ok []
  | (k, sch) :: rest =>
    match sch.parse (raw k) with
    | Except.error e => Except.error e
    | Except.ok d =>
      match validateAll rest raw with
      | Except.error e => Except.error e
      | Except.ok l => Except.ok ((k, d) :: l)

/-- The query-channel loop of `handle`, reading each entry's raw value via
`queryRawValue`. -/
def validateQueryAll (qs : List QuerySchemaRT) (sp : List (String × String)) :
    Except ZodError (List (String × V)) :=
  match qs with
  | [] => Except.ok []
  | q :: rest =>
    match q.schema.parse (queryRawValue sp q) with
    | Except.error e => Except.error e
    | Except.ok d =>
      match validateQueryAll rest sp with
      | Except.error e => Except.error e
      | Except.ok l => Except.ok ((q.key, d) :: l)

/-- Route matching of `handle`: look up the per-method table by the
request method, try the exact-path map on the pathname, then scan the
pattern list in registration order; a pattern hit also extracts the named
captures (the exact-path branch leaves `params` undefined). -/
def matchRoute (st : RouterState) (method pathname : String) :
    Option (Route × Option (List (String × String))) :=
  match alookup st.routesByUppercasedMethod method with
  | none => none
  | some routes =>
    match alookup routes.byPath pathname with
    | some r => some (r, none)
    | none =>
      match routes.patternList.find? (fun r => patternTest r.path pathname) with
      | some r => some (r, patternExec r.path pathname)
      | none => none

/-- OpenapiRouter.handle: match the route, fetch the body (`request.json()`
whenever a body schema is declared — before any validation), then validate
params, query, headers and body in that order, short-circuiting to the
validation error handler on the first failure; on success return the
validated context for the route handler. -/
def handle (st : RouterState) (req : Req) : HandleResult :=
  match matchRoute st req.method req.pathname with
  | none => HandleResult.notFound
  | some (route, matchedParams) =>
    let bodyE : Except Unit V :=
      if route.bodySchema.isSome then req.jsonBody else Except.ok V.stream
    match bodyE with
    | Except.error _ => HandleResult.thrown
    | Except.ok body =>
      let validatingParams := matchedParams.getD []
      match (match route.paramSchemas with
             | some ps => validateAll ps (lookupParamV validatingParams)
             | none => Except.ok []) with
      | Except.error e => HandleResult.validationError "params" e
      | Except.ok vparams =>
        match (match route.querySchemas with
               | some qs => validateQueryAll qs req.searchParams
               | none => Except.ok []) with
        | Except.error e => HandleResult.validationError "query" e
        | Except.ok vquery =>
          match (match route.headerSchemas with
                 | some hs => validateAll hs (lookupHeaderV (parsedHeaders req.headers))
                 | none => Except.ok []) with
          | Except.error e => HandleResult.validationError "headers" e
          | Except.ok vheaders =>
            match route.bodySchema with
            | some bs =>
              match bs.parse body with
              | Except.error e => HandleResult.validationError "body" e
              | Except.ok vbody => HandleResult.success vparams vquery vheaders vbody
            | none => HandleResult.success vparams vquery vheaders body

end OpenapiRouter

namespace OpenapiGenerator

/-- The generation-time failures of `src/errors.ts`:
`ConflictError` (message, conflicting key, competing values),
`MissingParameterDataError`, `UnknownZodTypeError`, and the plain `Error`
thrown on extending an unregistered schema. -/
inductive GenError where
  | conflict (message : String) (key : String) (values : List String)
  | missingParamData (missingField : String) (paramName : Option String)
  | unknownZodType (schemaName : Option String)
  | extendUnregistered (name : String)
deriving DecidableEq, Repr

/-- A raw component pushed by a `component` definition. -/
structure RawComponent where
  componentType : String
  name : String
  component : Json
deriving Repr

/-- The mutable fields of `OpenapiGenerator`: the schema-ref, parameter-ref
and path tables plus the raw component list, all built up while the
definitions are generated. -/
structure GenState where
  schemaRefs : List (String × Json) := []
  paramRefs : List (String × Json) := []
  pathRefs : List (String × Json) := []
  rawComponents : List RawComponent := []
deriving Repr

instance : Inhabited GenState := ⟨{}⟩

/-- unwrapChained: strip `ZodOptional`, `ZodNullable`, `ZodDefault` and
refinement-type `ZodEffects` wrappers (preprocess/transform effects are
not stripped). -/
def unwrapChained : Zod → Zod
  | .zoptional _ i => unwrapChained i
  | .znullable _ i => unwrapChained i
  | .zdefault _ i => unwrapChained i
  | .zeffects d e i =>
    match e with
    | .refinement => unwrapChained i
    | _ => .zeffects d e i
  | z => z

mutual

/-- flattenUnionTypes: a non-union is itself; a union flattens all its
options recursively. -/
def flattenUnionTypes : Zod → List Zod
  | .zunion _ opts => flattenUnionList opts
  | z => [z]

/-- flatMap of `flattenUnionTypes` over a union's option list. -/
def flattenUnionList : List Zod → List Zod
  | [] => []
  | z :: zs => flattenUnionTypes z ++ flattenUnionList zs

end

/-- flattenIntersectionTypes: a non-intersection is itself; an intersection
flattens both sides recursively. -/
def flattenIntersectionTypes : Zod → List Zod
  | .zintersection _ l r => flattenIntersectionTypes l ++ flattenIntersectionTypes r
  | z => [z]

/-- isOptionalSchema: look through `ZodEffects` and `ZodDefault`, then ask
zod's own `isOptional`. -/
def isOptionalSchema : Zod → Bool
  | .zeffects _ _ i => isOptionalSchema i
  | .zdefault _ i => isOptionalSchema i
  | z => z.isOptional

/-- getMetadata: the `openapi` metadata of the schema or of its unwrapped
core, with the schema's (or core's) zod `description` filled in when the
metadata itself does not carry one (`{description, ...metadata}`). -/
def getMetadata (z : Zod) : OMeta :=
  let innerSchema := unwrapChained z
  let metadata := z.defc.openapi.orElse (fun _ => innerSchema.defc.openapi)
  let description := z.defc.descr.orElse (fun _ => innerSchema.defc.descr)
  match metadata with
  | some m => { m with description := m.description.orElse (fun _ => description) }
  | none => { description := description }

/-- buildSchemaMetadata: the metadata minus `param`, `refId` and
`extendedFrom`, keeping only the non-nil fields. -/
def buildSchemaMetadata (m : OMeta) : List (String × Json) :=
  optField "description" (m.description.map Json.jstr) ++
  optField "type" (m.mtype.map Json.jstr) ++
  optField "format" (m.format.map Json.jstr) ++
  optField "example" m.exampleVal

/-- buildParameterMetadata: the non-nil fields of the `param` metadata. -/
def buildParameterMetadata (pm : PMeta) : List (String × Json) :=
  optField "name" (pm.name.map Json.jstr) ++
  optField "in" (pm.loc.map Json.jstr) ++
  optField "description" (pm.description.map Json.jstr)

/-- applySchemaMetadata: `omitBy({...initialData, ...buildSchemaMetadata},
isNil)`. -/
def applySchemaMetadata (initialData : Json) (metadata : OMeta) : Json :=
  match initialData with
  | .jobj fs => .jobj (amerge fs (buildSchemaMetadata metadata))
  | j => j

/-- mapStringFormat: uuid, email, then url, first match wins. -/
def mapStringFormat (isUUID isEmail isURL : Bool) : Option String :=
  if isUUID then some "uuid"
  else if isEmail then some "email"
  else if isURL then some "uri"
  else none

/-- Sequence a list of fallible computations' results, first error wins
(the JS `Array.map` over a throwing callback). -/
def seqExcept {E A : Type} : List (Except E A) → Except E (List A)
  | [] => Except.ok []
  | x :: xs =>
    match x with
    | Except.error e => Except.error e
    | Except.ok a =>
      match seqExcept xs with
      | Except.error e => Except.error e
      | Except.ok as => Except.ok (a :: as)

/-- Sequence keyed fallible results, first error wins (`mapValues` over a
throwing callback). -/
def seqExceptPairs {E A : Type} : List (String × Except E A) → Except E (List (String × A))
  | [] => Except.ok []
  | (k, x) :: xs =>
    match x with
    | Except.error e => Except.error e
    | Except.ok a =>
      match seqExceptPairs xs with
      | Except.error e => Except.error e
      | Except.ok as => Except.ok ((k, a) :: as)

theorem sizeOf_unwrapChained (z : Zod) : sizeOf (unwrapChained z) ≤ sizeOf z := by
  induction z using unwrapChained.induct <;> simp [unwrapChained] <;> omega

mutual

theorem mem_flattenUnionTypes_sizeOf (z t : Zod) (h : t ∈ flattenUnionTypes z) :
    sizeOf t ≤ sizeOf z := by
  match z with
  | .zunion d opts =>
    have hlt := mem_flattenUnionList_sizeOf opts t (by simpa [flattenUnionTypes] using h)
    simp only [Zod.zunion.sizeOf_spec]
    omega
  | .znull d | .zstring d a b c p | .znumber d i mn mx | .zboolean d | .zliteral d v
  | .zenum d vs | .zobject d sh u | .zarray d it mn mx | .zdiscUnion d tg os
  | .zintersection d l r | .zrecord d v | .zunknown d | .zdate d | .zoptional d i
  | .znullable d i | .zdefault d i | .zeffects d e i =>
    simp [flattenUnionTypes] at h
    subst h
    exact Nat.le_refl _

theorem mem_flattenUnionList_sizeOf (zs : List Zod) (t : Zod) (h : t ∈ flattenUnionList zs) :
    sizeOf t < sizeOf zs := by
  match zs with
  | [] => simp [flattenUnionList] at h
  | z :: rest =>
    simp only [flattenUnionList, List.mem_append] at h
    rcases h with h | h
    · have := mem_flattenUnionTypes_sizeOf z t h
      simp only [List.cons.sizeOf_spec]
      omega
    · have := mem_flattenUnionList_sizeOf rest t h
      simp only [List.cons.sizeOf_spec]
      omega

end

theorem mem_flattenIntersectionTypes_sizeOf (z t : Zod) (h : t ∈ flattenIntersectionTypes z) :
    sizeOf t ≤ sizeOf z := by
  induction z using flattenIntersectionTypes.induct with
  | case1 d l r ihl ihr =>
    simp only [flattenIntersectionTypes, List.mem_append] at h
    rcases h with h | h
    · have := ihl h
      simp only [Zod.zintersection.sizeOf_spec]
      omega
    · have := ihr h
      simp only [Zod.zintersection.sizeOf_spec]
      omega
  | case2 z hne =>
    have hz : flattenIntersectionTypes z = [z] := by
      cases z
      case zintersection d l r => exact (hne d l r rfl).elim
      all_goals rfl
    rw [hz] at h
    simp at h
    subst h
    exact Nat.le_refl _

theorem mem_flattenUnion_zunion_sizeOf (d : DefCommon) (opts : List Zod) (t : Zod)
    (h : t ∈ flattenUnionTypes (Zod.zunion d opts)) : sizeOf t < sizeOf (Zod.zunion d opts) := by
  have hl : flattenUnionTypes (Zod.zunion d opts) = flattenUnionList opts := rfl
  rw [hl] at h
  have := mem_flattenUnionList_sizeOf opts t h
  simp only [Zod.zunion.sizeOf_spec]
  omega

theorem mem_flattenInter_zinter_sizeOf (d : DefCommon) (l r : Zod) (t : Zod)
    (h : t ∈ flattenIntersectionTypes (Zod.zintersection d l r)) :
    sizeOf t < sizeOf (Zod.zintersection d l r) := by
  have hl : flattenIntersectionTypes (Zod.zintersection d l r) =
      flattenIntersectionTypes l ++ flattenIntersectionTypes r := rfl
  rw [hl] at h
  rcases List.mem_append.mp h with h | h
  · have := mem_flattenIntersectionTypes_sizeOf l t h
    simp only [Zod.zintersection.sizeOf_spec]
    omega
  · have := mem_flattenIntersectionTypes_sizeOf r t h
    simp only [Zod.zintersection.sizeOf_spec]
    omega

theorem mem_shape_sizeOf (shape : List (String × Zod)) (x : String × Zod)
    (h : x ∈ shape) : sizeOf x.2 < sizeOf shape := by
  have hx := List.sizeOf_lt_of_mem h
  cases x with
  | mk k v =>
    simp only [Prod.mk.sizeOf_spec] at hx
    simp only []
    omega

theorem mem_opts_sizeOf (opts : List Zod) (t : Zod) (h : t ∈ opts) :
    sizeOf t < sizeOf opts :=
  List.sizeOf_lt_of_mem h

/-- The `properties` record of a registered schema node (`?? {}`). -/
def registeredPropertiesOf (registeredSchema : Json) : List (String × Json) :=
  ((registeredSchema.get "properties").getD (Json.jobj [])).fields

/-- The `required` list of a registered schema node (`?? []`). -/
def registeredRequiredOf (registeredSchema : Json) : List String :=
  match (registeredSchema.get "required").getD (Json.jarr []) with
  | Json.jarr xs => xs.filterMap (fun x =>
      match x with
      | Json.jstr s => some s
      | _ => none)
  | _ => []

/-- JS `typeof` on the modelled JSON values (`typeof null` is "object"). -/
def jsTypeof : Json → String
  | .jstr _ => "string"
  | .jnum _ => "number"
  | .jbool _ => "boolean"
  | _ => "object"

mutual

/-- generateSimpleSchema: unwrap the chained wrappers; if the metadata
names an already-registered ref, emit a `$ref` (wrapped in
`allOf: [ref, extraMetadata]` when extra metadata remains), otherwise
convert the unwrapped schema (honouring a `type` metadata override) and
apply the metadata onto the node. -/
def generateSimpleSchema (st : GenState) (z : Zod) : Except GenError Json :=
  let innerSchema := unwrapChained z
  let metadata := z.defc.openapi.orElse (fun _ => innerSchema.defc.openapi)
  let hitRef := metadata.bind (fun m => m.refId.bind (fun r =>
    if r = "" then none
    else
      match alookup st.schemaRefs r with
      | some _ => some r
      | none => none))
  match hitRef with
  | some r =>
    let referenceObject := Json.jobj [("$ref", Json.jstr ("#/components/schemas/" ++ r))]
    let nullableMetadata := if z.isNullable then [("nullable", Json.jbool true)] else []
    let appliedMetadata := applySchemaMetadata (Json.jobj nullableMetadata) (metadata.getD {})
    match appliedMetadata with
    | Json.jobj fs =>
      if fs.length > 0 then
        Except.ok (Json.jobj [("allOf", Json.jarr [referenceObject, appliedMetadata])])
      else
        Except.ok referenceObject
    | _ => Except.ok referenceObject
  | none =>
    match (match metadata.bind (fun m => m.mtype) with
           | some t => Except.ok (Json.jobj [("type", Json.jstr t)])
           | none => toOpenapiSchema st innerSchema z.isNullable) with
    | Except.error e => Except.error e
    | Except.ok result =>
      Except.ok (match metadata with
        | some m => applySchemaMetadata result m
        | none => result)
termination_by (sizeOf z, 2)
decreasing_by
  have h := sizeOf_unwrapChained z
  rcases Nat.lt_or_ge (sizeOf (unwrapChained z)) (sizeOf z) with hlt | hge
  · exact Prod.Lex.left _ _ hlt
  · have heq : sizeOf (unwrapChained z) = sizeOf z := Nat.le_antisymm h hge
    rw [heq]
    exact Prod.Lex.right _ (by omega)

/-- generateInnerSchema: `generateSimpleSchema`, then return `$ref` results
unchanged and otherwise apply the extra metadata argument — which no call
site in the source ever passes, so both branches return the simple schema
itself. -/
def generateInnerSchema (st : GenState) (z : Zod) : Except GenError Json :=
  generateSimpleSchema st z
termination_by (sizeOf z, 3)
decreasing_by
  exact Prod.Lex.right _ (by omega)

/-- toOpenapiSchema: the kind-by-kind conversion of an (unwrapped) schema
to an OpenAPI node; an unhandled kind (here `ZodDate` and transform-type
`ZodEffects`) raises `UnknownZodTypeError`. -/
def toOpenapiSchema (st : GenState) (z : Zod) (isNb : Bool) : Except GenError Json :=
  match z with
  | .znull _ => Except.ok (Json.jobj [("type", Json.jstr "null")])
  | .zstring _ isUUID isEmail isURL pattern =>
    Except.ok (Json.jobj ([("type", Json.jstr "string")]
      ++ (if isNb then [("nullable", Json.jbool true)] else [])
      ++ optField "format" ((mapStringFormat isUUID isEmail isURL).map Json.jstr)
      ++ optField "pattern" (pattern.map Json.jstr)))
  | .znumber _ isInt minValue maxValue =>
    Except.ok (Json.jobj ([("type", Json.jstr (if isInt then "integer" else "number"))]
      ++ optField "minimum" (minValue.map Json.jnum)
      ++ optField "maximum" (maxValue.map Json.jnum)
      ++ (if isNb then [("nullable", Json.jbool true)] else [])))
  | .zboolean _ =>
    Except.ok (Json.jobj ([("type", Json.jstr "boolean")]
      ++ (if isNb then [("nullable", Json.jbool true)] else [])))
  | .zdefault _ innerType => generateInnerSchema st innerType
  | .zeffects d e inner =>
    match e with
    | .refinement => generateInnerSchema st inner
    | .preprocess => generateInnerSchema st inner
    | .transform =>
      Except.error (GenError.unknownZodType
        ((getMetadata (.zeffects d e inner)).refId))
  | .zliteral _ v =>
    Except.ok (Json.jobj ([("type", Json.jstr (jsTypeof v))]
      ++ (if isNb then [("nullable", Json.jbool true)] else [])
      ++ [("enum", Json.jarr [v])]))
  | .zenum _ values =>
    Except.ok (Json.jobj ([("type", Json.jstr "string")]
      ++ (if isNb then [("nullable", Json.jbool true)] else [])
      ++ [("enum", Json.jarr (values.map Json.jstr))]))
  | .zobject d shape uk => toOpenapiObjectSchema st d shape uk isNb
  | .zarray _ itemType minLength maxLength =>
    match generateInnerSchema st itemType with
    | Except.error e => Except.error e
    | Except.ok items =>
      Except.ok (Json.jobj ([("type", Json.jstr "array"), ("items", items)]
        ++ optField "minItems" (minLength.map Json.jnum)
        ++ optField "maxItems" (maxLength.map Json.jnum)))
  | .zunion d opts =>
    match seqExcept ((flattenUnionTypes (.zunion d opts)).attach.map
        (fun x => generateInnerSchema st x.1)) with
    | Except.error e => Except.error e
    | Except.ok nodes => Except.ok (Json.jobj [("anyOf", Json.jarr nodes)])
  | .zdiscUnion _ discriminator opts =>
    match seqExcept (opts.attach.map (fun x => generateInnerSchema st x.1)) with
    | Except.error e => Except.error e
    | Except.ok nodes =>
      Except.ok (Json.jobj [("oneOf", Json.jarr nodes),
        ("discriminator", Json.jobj [("propertyName", Json.jstr discriminator)])])
  | .zintersection d l r =>
    match seqExcept ((flattenIntersectionTypes (.zintersection d l r)).attach.map
        (fun x => generateInnerSchema st x.1)) with
    | Except.error e => Except.error e
    | Except.ok nodes => Except.ok (Json.jobj [("allOf", Json.jarr nodes)])
  | .zrecord _ valueType =>
    match generateInnerSchema st valueType with
    | Except.error e => Except.error e
    | Except.ok node =>
      Except.ok (Json.jobj [("type", Json.jstr "object"), ("additionalProperties", node)])
  | .zunknown _ => Except.ok (Json.jobj [])
  | .zdate d => Except.error (GenError.unknownZodType ((getMetadata (.zdate d)).refId))
  | .zoptional d i =>
    Except.error (GenError.unknownZodType ((getMetadata (.zoptional d i)).refId))
  | .znullable d i =>
    Except.error (GenError.unknownZodType ((getMetadata (.znullable d i)).refId))
termination_by (sizeOf z, 1)
decreasing_by
  all_goals apply Prod.Lex.left
  all_goals first
    | (simp only [Zod.zdefault.sizeOf_spec, Zod.zeffects.sizeOf_spec, Zod.zobject.sizeOf_spec,
         Zod.zarray.sizeOf_spec, Zod.zrecord.sizeOf_spec]
       omega)
    | (have hsz := mem_flattenUnion_zunion_sizeOf _ _ _ x.2
       omega)
    | (have hsz := mem_flattenInter_zinter_sizeOf _ _ _ _ x.2
       omega)
    | (have hsz := mem_opts_sizeOf _ _ x.2
       simp only [Zod.zdiscUnion.sizeOf_spec]
       omega)

/-- toOpenapiObjectSchema: required keys are the non-optional direct
properties; every property is converted; when the object extends a
registered schema, the properties structurally equal to the parent's
registered ones are omitted and the keys the parent already requires are
dropped from the required list; the node is wrapped in
`allOf: [$ref parent, objectData]` exactly when extending. -/
def toOpenapiObjectSchema (st : GenState) (d : DefCommon) (shape : List (String × Zod))
    (uk : UnknownKeys) (isNb : Bool) : Except GenError Json :=
  let extendedFrom := d.openapi.bind (fun m => m.extendedFrom)
  let requiredProperties := (shape.filter (fun kv => !(isOptionalSchema kv.2))).map (fun kv => kv.1)
  match seqExceptPairs (shape.attach.map (fun x => (x.1.1, generateInnerSchema st x.1.2))) with
  | Except.error e => Except.error e
  | Except.ok (schemaProperties : List (String × Json)) =>
    match (match extendedFrom with
           | none => Except.ok (([] : List String), ([] : List String))
           | some parentId =>
             match alookup st.schemaRefs parentId with
             | none => Except.error (GenError.extendUnregistered parentId)
             | some registeredSchema =>
               let registeredProperties : List (String × Json) :=
                 registeredPropertiesOf registeredSchema
               let alreadyRegistered : List String := (registeredProperties.map Prod.fst).filter
                 (fun propKey => objectEquals (alookup schemaProperties propKey)
                   (alookup registeredProperties propKey))
               let alreadyRequired := registeredRequiredOf registeredSchema
               Except.ok (alreadyRegistered, alreadyRequired)) with
    | Except.error e => Except.error e
    | Except.ok (alreadyRegistered, alreadyRequired) =>
      let properties : List (String × Json) :=
        schemaProperties.filter (fun kv => !(alreadyRegistered.contains kv.1))
      let additionallyRequired := requiredProperties.filter (fun p => !(alreadyRequired.contains p))
      let objectData := Json.jobj ([("type", Json.jstr "object"), ("properties", Json.jobj properties)]
        ++ (if isNb then [("nullable", Json.jbool true)] else [])
        ++ (if additionallyRequired.length > 0 then
              [("required", Json.jarr (additionallyRequired.map Json.jstr))]
            else [])
        ++ (if uk = UnknownKeys.passthrough then [("additionalProperties", Json.jbool true)] else []))
      match extendedFrom with
      | some parentId =>
        Except.ok (Json.jobj [("allOf", Json.jarr
          [Json.jobj [("$ref", Json.jstr ("#/components/schemas/" ++ parentId))], objectData])])
      | none => Except.ok objectData
termination_by (sizeOf shape, 0)
decreasing_by
  apply Prod.Lex.left
  have := mem_shape_sizeOf shape x.1 x.2
  omega

end

/-- The string content of a JSON value, when it is a string. -/
def jAsStr : Json → Option String
  | .jstr s => some s
  | _ => none

/-- JS string interpolation of a possibly-missing name
(`${existingRef.name}` prints `undefined` when absent). -/
def jShowName (j : Option Json) : String :=
  match j with
  | some (.jstr s) => s
  | _ => "undefined"

/-- JS truthiness of an optional string (undefined and "" are falsy). -/
def strTruthy : Option String → Bool
  | some s => s ≠ ""
  | none => false

/-- The `in`/`name` pair implied by a parameter's position in a route
(the `external` argument of `getParameterRef`). -/
structure ParameterData where
  loc : Option String := none
  name : Option String := none
deriving Repr

/-- generateParameter: the parameter's name and location must be present
(and non-empty) in the metadata, else `MissingParameterDataError`; required
is `not optional and not nullable`; the node is
`{in, name, schema, required, description?, ...paramMetadata}`. -/
def generateParameter (st : GenState) (z : Zod) : Except GenError Json :=
  let metadata := getMetadata z
  let paramMetadata := metadata.param
  match paramMetadata.bind (fun pm => pm.name) with
  | none => Except.error (GenError.missingParamData "name" none)
  | some paramName =>
    if paramName = "" then Except.error (GenError.missingParamData "name" none)
    else
      match paramMetadata.bind (fun pm => pm.loc) with
      | none => Except.error (GenError.missingParamData "in" (some paramName))
      | some paramLocation =>
        if paramLocation = "" then Except.error (GenError.missingParamData "in" (some paramName))
        else
          let required := !z.isOptional && !z.isNullable
          match generateSimpleSchema st z with
          | Except.error e => Except.error e
          | Except.ok schema =>
            let base := [("in", Json.jstr paramLocation), ("name", Json.jstr paramName),
                         ("schema", schema), ("required", Json.jbool required)]
              ++ optField "description" (metadata.description.map Json.jstr)
            Except.ok (Json.jobj (match paramMetadata with
              | some pm => amerge base (buildParameterMetadata pm)
              | none => base))

/-- generateParameterDefinition: generate the parameter and, when the
metadata names a refId, register it in the parameter-ref table. -/
def generateParameterDefinition (st : GenState) (z : Zod) : Except GenError GenState :=
  let metadata := getMetadata z
  match generateParameter st z with
  | Except.error e => Except.error e
  | Except.ok result =>
    Except.ok (match metadata.refId with
      | some r => if r = "" then st else { st with paramRefs := aset st.paramRefs r result }
      | none => st)

/-- getParameterRef: when the schema's metadata names an already-registered
parameter ref, verify the registered `in` and `name` against both the
metadata's own `param` data and the location/name implied by the usage
site; a mismatch raises `ConflictError` with the conflicting key and the
compacted list of competing values; otherwise emit a parameter `$ref`. -/
def getParameterRef (st : GenState) (schemaMetadata : OMeta) (external : ParameterData) :
    Except GenError (Option Json) :=
  let parameterMetadata := schemaMetadata.param
  let existingRef := schemaMetadata.refId.bind (fun r => alookup st.paramRefs r)
  match schemaMetadata.refId, existingRef with
  | some refId, some existingRefNode =>
    if refId = "" then Except.ok none
    else
      let refLoc := existingRefNode.get "in"
      let refName := existingRefNode.get "name"
      if (parameterMetadata.isSome &&
            !(objectEquals refLoc ((parameterMetadata.bind (fun pm => pm.loc)).map Json.jstr))) ||
         (strTruthy external.loc && !(objectEquals refLoc (external.loc.map Json.jstr))) then
        Except.error (GenError.conflict
          ("Conflicting location for parameter " ++ jShowName refName) "in"
          (compactS [refLoc.bind jAsStr, external.loc, parameterMetadata.bind (fun pm => pm.loc)]))
      else if (parameterMetadata.isSome &&
            !(objectEquals refName ((parameterMetadata.bind (fun pm => pm.name)).map Json.jstr))) ||
         (strTruthy external.name && !(objectEquals refName (external.name.map Json.jstr))) then
        Except.error (GenError.conflict "Conflicting names for parameter" "name"
          (compactS [refName.bind jAsStr, external.name, parameterMetadata.bind (fun pm => pm.name)]))
      else
        Except.ok (some (Json.jobj [("$ref", Json.jstr ("#/components/parameters/" ++ refId))]))
  | _, _ => Except.ok none

/-- Models `schema.openapi({ param: { name: key, in: location } })`: a copy
of the schema whose metadata's `param` has the name and location merged
in over whatever was there. -/
def withParamMeta (z : Zod) (key location : String) : Zod :=
  z.mapDefc (fun d =>
    let old := d.openapi.getD {}
    let oldParam := old.param.getD {}
    { d with openapi := some { old with
        param := some { oldParam with name := some key, loc := some location } } })

/-- One step of generateInlineParameters for the entry `key ↦ schema` of a
route section at `location`: emit a `$ref` when the schema is a registered
parameter (after `getParameterRef`'s conflict checks); otherwise check the
schema's own `param` name/location against the route position, raising
`ConflictError` on mismatch, and generate an inline parameter with the
key/location stamped into the metadata. -/
def generateInlineParameterOne (st : GenState) (key : String) (schema : Zod) (location : String) :
    Except GenError Json :=
  let innerMetadata := getMetadata schema
  match getParameterRef st innerMetadata { loc := some location, name := some key } with
  | Except.error e => Except.error e
  | Except.ok (some referencedSchema) => Except.ok referencedSchema
  | Except.ok none =>
    let ipm := innerMetadata.param
    let ipmName := ipm.bind (fun pm => pm.name)
    let ipmLoc := ipm.bind (fun pm => pm.loc)
    if strTruthy ipmName && ipmName != some key then
      Except.error (GenError.conflict "Conflicting names for parameter" "name"
        [key, ipmName.getD ""])
    else if strTruthy ipmLoc && ipmLoc != some location then
      Except.error (GenError.conflict
        ("Conflicting location for parameter " ++ ipmName.getD key) "in"
        [location, ipmLoc.getD ""])
    else
      generateParameter st (withParamMeta schema key location)

/-- generateInlineParameters over one route section. -/
def generateInlineParameters (st : GenState) (params : List (String × Zod)) (location : String) :
    Except GenError (List Json) :=
  seqExcept (params.map (fun kv => generateInlineParameterOne st kv.1 kv.2 location))

/-- A request body declaration (`ZodRequestBody`). -/
structure ZBody where
  description : Option String := none
  required : Option Bool := none
  content : List (String × Sum Zod Json) := []

/-- A declared response header: a zod schema or a raw spec object. -/
structure ZRespHeader where
  description : Option String := none
  schema : Sum Zod Json

/-- A response declaration (`ZodResponseConfig`). -/
structure ZResponse where
  description : String
  headers : Option (List (String × ZRespHeader)) := none
  content : Option (List (String × Sum Zod Json)) := none
  extra : List (String × Json) := []

/-- A route's request section. -/
structure ZRequest where
  body : Option ZBody := none
  params : Option (List (String × Zod)) := none
  query : Option (List (String × Zod)) := none
  headers : Option (List (String × Zod)) := none

/-- A route definition (`ZodRouteConfig`): method, path, request shape,
responses, and the passthrough operation fields (summary etc.). -/
structure ZRoute where
  method : String
  path : String
  request : Option ZRequest := none
  responses : List (String × ZResponse) := []
  extraFields : List (String × Json) := []

/-- getParameters: inline (or ref) parameters for the query, path and
header sections — generated in that order (the evaluation order of the
source), returned as path, then query, then header parameters. -/
def getParameters (st : GenState) (request : Option ZRequest) : Except GenError (List Json) :=
  match request with
  | none => Except.ok []
  | some req =>
    match (match req.query with
           | some q => generateInlineParameters st q "query"
           | none => Except.ok []) with
    | Except.error e => Except.error e
    | Except.ok queryParameters =>
      match (match req.params with
             | some p => generateInlineParameters st p "path"
             | none => Except.ok []) with
      | Except.error e => Except.error e
      | Except.ok pathParameters =>
        match (match req.headers with
               | some h => generateInlineParameters st h "header"
               | none => Except.ok []) with
        | Except.error e => Except.error e
        | Except.ok headerParameters =>
          Except.ok (pathParameters ++ queryParameters ++ headerParameters)

/-- getBodyContent: per media type, `{schema: converted}` for zod schemas
and `{schema: raw}` for literal spec objects. -/
def getBodyContent (st : GenState) (content : List (String × Sum Zod Json)) :
    Except GenError Json :=
  match seqExceptPairs (content.map (fun kv => (kv.1,
      (match kv.2 with
       | Sum.inl sch =>
         match generateSimpleSchema st sch with
         | Except.error e => Except.error e
         | Except.ok node => Except.ok (Json.jobj [("schema", node)])
       | Sum.inr raw => Except.ok (Json.jobj [("schema", raw)]) : Except GenError Json)))) with
  | Except.error e => Except.error e
  | Except.ok entries => Except.ok (Json.jobj entries)

/-- getRequestBody: `{...rest, content: getBodyContent(content)}`. -/
def getRequestBody (st : GenState) (rb : Option ZBody) : Except GenError (Option Json) :=
  match rb with
  | none => Except.ok none
  | some b =>
    match getBodyContent st b.content with
    | Except.error e => Except.error e
    | Except.ok content =>
      Except.ok (some (Json.jobj (optField "description" (b.description.map Json.jstr)
        ++ optField "required" (b.required.map Json.jbool)
        ++ [("content", content)])))

/-- getResponseHeaders: a raw header config passes through; a zod schema
header gets its schema converted in place. -/
def getResponseHeaders (st : GenState) (headers : List (String × ZRespHeader)) :
    Except GenError Json :=
  match seqExceptPairs (headers.map (fun kv => (kv.1,
      (match kv.2.schema with
       | Sum.inr raw =>
         Except.ok (Json.jobj (optField "description" (kv.2.description.map Json.jstr)
           ++ [("schema", raw)]))
       | Sum.inl sch =>
         match generateInnerSchema st sch with
         | Except.error e => Except.error e
         | Except.ok node =>
           Except.ok (Json.jobj (optField "description" (kv.2.description.map Json.jstr)
             ++ [("schema", node)])) : Except GenError Json)))) with
  | Except.error e => Except.error e
  | Except.ok entries => Except.ok (Json.jobj entries)

/-- getResponse: `{...rest, content?, headers?}` (content computed before
headers, as in the source). -/
def getResponse (st : GenState) (r : ZResponse) : Except GenError Json :=
  match (match r.content with
         | some c =>
           match getBodyContent st c with
           | Except.error e => Except.error e
           | Except.ok node => Except.ok (some node)
         | none => Except.ok none) with
  | Except.error e => Except.error e
  | Except.ok contentNode =>
    match (match r.headers with
           | some h =>
             match getResponseHeaders st h with
             | Except.error e => Except.error e
             | Except.ok node => Except.ok (some node)
           | none => Except.ok none) with
    | Except.error e => Except.error e
    | Except.ok headersNode =>
      Except.ok (Json.jobj ([("description", Json.jstr r.description)] ++ r.extra
        ++ (match contentNode with
            | some c => [("content", c)]
            | none => [])
        ++ (match headersNode with
            | some h => [("headers", h)]
            | none => [])))

/-- generateSingleRoute: generate the responses, then the parameters, then
the request body; assemble the operation object and merge it into the path
table under the route's path, keyed by method. -/
def generateSingleRoute (st : GenState) (route : ZRoute) : Except GenError GenState :=
  match seqExceptPairs (route.responses.map (fun kv => (kv.1, getResponse st kv.2))) with
  | Except.error e => Except.error e
  | Except.ok generatedResponses =>
    match getParameters st route.request with
    | Except.error e => Except.error e
    | Except.ok parameters =>
      match getRequestBody st (route.request.bind (fun r => r.body)) with
      | Except.error e => Except.error e
      | Except.ok requestBody =>
        let operation := Json.jobj (route.extraFields
          ++ (if parameters.length > 0 then [("parameters", Json.jarr parameters)] else [])
          ++ (match requestBody with
              | some rb => [("requestBody", rb)]
              | none => [])
          ++ [("responses", Json.jobj generatedResponses)])
        let existing := ((alookup st.pathRefs route.path).getD (Json.jobj [])).fields
        let newPathItem := Json.jobj (amerge existing [(route.method, operation)])
        Except.ok { st with pathRefs := aset st.pathRefs route.path newPathItem }

/-- generateSchemaDefinition: convert the schema, apply its metadata, and
register the result under its refId (when present) in the schema-ref
table. -/
def generateSchemaDefinition (st : GenState) (z : Zod) : Except GenError GenState :=
  let metadata := getMetadata z
  let refId := metadata.refId
  match generateSimpleSchema st z with
  | Except.error e => Except.error e
  | Except.ok simpleSchema =>
    let result := applySchemaMetadata simpleSchema metadata
    Except.ok (match refId with
      | some r => if r = "" then st else { st with schemaRefs := aset st.schemaRefs r result }
      | none => st)

/-- One definition of the registry (`OpenapiDefinitions`). -/
inductive ODef where
  | schemaDef (schema : Zod)
  | parameterDef (schema : Zod)
  | routeDef (route : ZRoute)
  | componentDef (componentType : String) (name : String) (component : Json)

/-- generateSingle: dispatch on the definition kind; a raw component is
pushed onto the raw-component list. -/
def generateSingle (st : GenState) (d : ODef) : Except GenError GenState :=
  match d with
  | .parameterDef schema => generateParameterDefinition st schema
  | .schemaDef schema => generateSchemaDefinition st schema
  | .routeDef route => generateSingleRoute st route
  | .componentDef ct n c =>
    Except.ok { st with rawComponents := st.rawComponents ++ [⟨ct, n, c⟩] }

/-- The `findIndex` of a definition's type in the generation order
`["schema", "parameter", "route"]`; a raw component is not in the list and
gets `-1`, which sorts it before everything else. -/
def defOrderIndex : ODef → Int
  | .schemaDef _ => 0
  | .parameterDef _ => 1
  | .routeDef _ => 2
  | .componentDef _ _ _ => -1

/-- Stable insertion of a definition before the first strictly-greater
index. -/
def insertByOrderIndex (x : ODef) : List ODef → List ODef
  | [] => [x]
  | y :: ys =>
    if defOrderIndex y < defOrderIndex x then y :: insertByOrderIndex x ys
    else x :: y :: ys

/-- sortDefinitions: the stable sort JS `Array.prototype.sort` performs
with the comparator `leftIndex - rightIndex` (ES2019 guarantees sort
stability, and V8 provides it); definitions of equal order index keep
their registration order. -/
def sortDefinitions : List ODef → List ODef
  | [] => []
  | x :: xs => insertByOrderIndex x (sortDefinitions xs)

/-- The per-kind raw component buckets: each raw component is assigned
into `record[kind][name]`, later registrations overwriting earlier ones of
the same kind and name. -/
def rawComponentsRecord (st : GenState) : List (String × Json) :=
  st.rawComponents.foldl (fun acc rc =>
    let bucket := ((alookup acc rc.componentType).getD (Json.jobj [])).fields
    aset acc rc.componentType (Json.jobj (aset bucket rc.name rc.component))) []

/-- buildComponents continued: the raw record with the generated schema
and parameter refs laid over the `schemas` and `parameters` buckets. -/
def buildComponents (st : GenState) : Json :=
  let raw : List (String × Json) := rawComponentsRecord st
  let rawSchemas := ((alookup raw "schemas").getD (Json.jobj [])).fields
  let rawParameters := ((alookup raw "parameters").getD (Json.jobj [])).fields
  Json.jobj (aset (aset raw "schemas" (Json.jobj (amerge rawSchemas st.schemaRefs)))
    "parameters" (Json.jobj (amerge rawParameters st.paramRefs)))

/-- generateDocument: sort the definitions (done in the generator's
constructor), generate each in order, then assemble
`{...config, components, paths}`. -/
def generateDocument (definitions : List ODef) (config : List (String × Json)) :
    Except GenError Json :=
  let sorted := sortDefinitions definitions
  match sorted.foldlM generateSingle ({} : GenState) with
  | Except.error e => Except.error e
  | Except.ok st =>
    Except.ok (Json.jobj (config
      ++ [("components", buildComponents st), ("paths", Json.jobj st.pathRefs)]))

end OpenapiGenerator

namespace OpenapiRouter

/-- State of the closure `memoizePromise` creates: `memoized` is the cached
promise (`null` initially), promises are identified by allocation order,
`nextId` is the next fresh promise identity and `createRuns` counts how
often `create` has run. -/
structure MemoState where
  memoized : Option Nat := none
  nextId : Nat := 0
  createRuns : Nat := 0
deriving DecidableEq, Repr

/-- One call of the memoized thunk: `if (!memoized) memoized = create();
return memoized`.  The promise `create` returns is stored synchronously —
before it settles — so even a call racing the first computation reads the
stored promise.  Calls are sequential because the surrounding runtime is
single-threaded. -/
def memoCall (s : MemoState) : Nat × MemoState :=
  match s.memoized with
  | some p => (p, s)
  | none =>
    (s.nextId,
     { memoized := some s.nextId, nextId := s.nextId + 1, createRuns := s.createRuns + 1 })

/-- `n` successive calls of the memoized thunk, returning the promises the
callers observe, in call order. -/
def memoCalls : Nat → MemoState → List Nat × MemoState
  | 0, s => ([], s)
  | n + 1, s =>
    let c := memoCall s
    let rest := memoCalls n c.2
    (c.1 :: rest.1, rest.2)

/-- Modelled from the spec: the per-request state machine
`MATCH → VALIDATE(params) → VALIDATE(query) → VALIDATE(headers) →
VALIDATE(body) → DISPATCH`, in which any VALIDATE step failing transitions
directly to the error-response terminal state for that channel's source,
skipping every remaining step (fail-fast, first-failure-wins), and the
handler is dispatched only when every declared channel validated.  This is
the spec-side yardstick the router's `handle` is compared against. -/
def specValidationPipeline (route : Route) (captured : Option (List (String × String)))
    (sp : List (String × String)) (rawHeaders : List (String × String)) (body : V) :
    HandleResult :=
  match (match route.paramSchemas with
         | some ps => validateAll ps (lookupParamV (captured.getD []))
         | none => Except.ok []) with
  | Except.error e => HandleResult.validationError "params" e
  | Except.ok vparams =>
    match (match route.querySchemas with
           | some qs => validateQueryAll qs sp
           | none => Except.ok []) with
    | Except.error e => HandleResult.validationError "query" e
    | Except.ok vquery =>
      match (match route.headerSchemas with
             | some hs => validateAll hs (lookupHeaderV (parsedHeaders rawHeaders))
             | none => Except.ok []) with
      | Except.error e => HandleResult.validationError "headers" e
      | Except.ok vheaders =>
        match route.bodySchema with
        | some bs =>
          match bs.parse body with
          | Except.error e => HandleResult.validationError "body" e
          | Except.ok vbody => HandleResult.success vparams vquery vheaders vbody
        | none => HandleResult.success vparams vquery vheaders body

/-- The wrapper chains `unwrapZodType` strips on the way to an array: only
`ZodOptional`, `ZodNullable`, `ZodDefault` and refinement-type `ZodEffects`
layers may stand between the schema and a `ZodArray`.  This is the
spec-side description of when a query key is array-classified. -/
inductive ReachesArrayByUnwrap : Zod → Prop where
  | arr (d : DefCommon) (item : Zod) (mn mx : Option Int) :
      ReachesArrayByUnwrap (Zod.zarray d item mn mx)
  | opt (d : DefCommon) (i : Zod) :
      ReachesArrayByUnwrap i → ReachesArrayByUnwrap (Zod.zoptional d i)
  | nul (d : DefCommon) (i : Zod) :
      ReachesArrayByUnwrap i → ReachesArrayByUnwrap (Zod.znullable d i)
  | dflt (d : DefCommon) (i : Zod) :
      ReachesArrayByUnwrap i → ReachesArrayByUnwrap (Zod.zdefault d i)
  | refine (d : DefCommon) (i : Zod) :
      ReachesArrayByUnwrap i → ReachesArrayByUnwrap (Zod.zeffects d EffKind.refinement i)

end OpenapiRouter

namespace OpenapiRouter

/-- A plain string schema tree (z.string()). -/
def strAst : Zod := Zod.zstring {} false false false none

/-- A string-array schema tree (z.array(z.string())). -/
def arrAst : Zod := Zod.zarray {} strAst none none

/-- A runtime schema whose black-box safeParse accepts any value
unchanged. -/
def acceptAll (ast : Zod) : ZodRT := ⟨ast, fun v => Except.ok v⟩

/-- A runtime schema whose safeParse always fails with one issue. -/
def rejectAll (ast : Zod) (msg : String) : ZodRT :=
  ⟨ast, fun _ => Except.error ⟨[msg]⟩⟩

/-- A runtime schema accepting exactly string values, as z.string() does:
anything else — in particular undefined — fails with a required-issue. -/
def acceptStr (ast : Zod) : ZodRT :=
  ⟨ast, fun v =>
    match v with
    | V.str s => Except.ok (V.str s)
    | _ => Except.error ⟨["Required"]⟩⟩

/-- C1 fixture: a route with a failing path-parameter schema and a failing
body schema. -/
def c1Route : Route :=
  { path := "/users/\x7bid\x7d", hasUrlPattern := true,
    paramSchemas := some [("id", rejectAll strAst "bad-param")],
    bodySchema := some (rejectAll strAst "bad-body") }

/-- C1 fixture: the router with only that route. -/
def c1State : RouterState := addRoute {} "post" c1Route

/-- C1 fixture: a request whose path parameter and body are both invalid
(the body is well-formed JSON that the body schema rejects). -/
def c1Req : Req :=
  { method := "POST", pathname := "/users/7",
    jsonBody := Except.ok (V.json (Json.jobj [])) }

/-- C2 fixture: the exact route `GET /users/list` (no placeholder, so no
urlPattern). -/
def c2ExactRoute : Route := mkRoute { method := "get", path := "/users/list" }

/-- C2 fixture: the pattern route `GET /users/\x7bid\x7d`. -/
def c2PatternRoute : Route := mkRoute { method := "get", path := "/users/\x7bid\x7d" }

/-- C2 fixture: the router with the pattern route registered first and the
exact route second. -/
def c2State : RouterState := addRoute (addRoute {} "get" c2PatternRoute) "get" c2ExactRoute

/-- C3 fixture: a route declaring `tag` as an array-typed query key. -/
def c3ArrState : RouterState :=
  addRoute {} "get"
    (mkRoute { method := "get", path := "/q", reqQuery := some [("tag", acceptAll arrAst)] })

/-- C3 fixture: a route declaring `tag` as a plain string query key. -/
def c3StrState : RouterState :=
  addRoute {} "get"
    (mkRoute { method := "get", path := "/q", reqQuery := some [("tag", acceptAll strAst)] })

/-- C3 fixture: a request with the repeated query key `?tag=a&tag=b`. -/
def c3Req : Req :=
  { method := "GET", pathname := "/q",
    searchParams := [("tag", "a"), ("tag", "b")] }

/-- C6 counterexample fixture: the declared header key carries uppercase
letters, as the claim's example does. -/
def c6CexState : RouterState :=
  addRoute {} "get"
    (mkRoute { method := "get", path := "/h", reqHeaders := some [("X-Some-Uuid", acceptStr strAst)] })

/-- C6 counterexample fixture: the request supplies that header in
lowercase. -/
def c6CexReq : Req :=
  { method := "GET", pathname := "/h",
    headers := [("x-some-uuid", "ccf47b7e-0c7d-4fe7-a830-73b1253e0b5d")] }

/-- C6 witness fixture: the declared key is all-lowercase. -/
def c6State : RouterState :=
  addRoute {} "get"
    (mkRoute { method := "get", path := "/h", reqHeaders := some [("x-some-uuid", acceptStr strAst)] })

/-- C6 witness fixture: the request sends the header capitalized. -/
def c6Req : Req :=
  { method := "GET", pathname := "/h",
    headers := [("X-Some-Uuid", "abc")] }

/-- C7 fixture: a route declaring a JSON body schema, built through the
extraction pipeline from a route config. -/
def c7State : RouterState :=
  addRoute {} "post"
    (mkRoute { method := "post", path := "/b",
               reqBodyContent := some [("application/json", Sum.inl (acceptAll strAst))] })

/-- C7 fixture: a request whose body is malformed JSON
(`request.json()` throws). -/
def c7Req : Req := { method := "POST", pathname := "/b", jsonBody := Except.error () }

/-- C7 fixture: a route with an invalid path parameter AND a declared body
schema, to show the JSON parse error preempts even the params channel. -/
def c7ParamRoute : Route :=
  { path := "/u/\x7bid\x7d", hasUrlPattern := true,
    paramSchemas := some [("id", rejectAll strAst "bad-param")],
    bodySchema := some (acceptAll strAst) }

/-- C7 fixture: router for `c7ParamRoute`. -/
def c7ParamState : RouterState := addRoute {} "post" c7ParamRoute

/-- C7 fixture: malformed-JSON request for `c7ParamRoute` whose path
parameter would also fail validation. -/
def c7ParamReq : Req := { method := "POST", pathname := "/u/9", jsonBody := Except.error () }

/-- C10 fixture: an array schema hidden behind a preprocess-type
`ZodEffects` wrapper (`z.preprocess(fn, z.array(z.string()))`). -/
def preprocessArrAst : Zod := Zod.zeffects {} EffKind.preprocess arrAst

/-- C10 fixture: a route declaring `tag` with the preprocess-wrapped array
schema. -/
def c10State : RouterState :=
  addRoute {} "get"
    (mkRoute { method := "get", path := "/q", reqQuery := some [("tag", acceptAll preprocessArrAst)] })

/-- C10 fixture: the same repeated-key request as C3. -/
def c10Req : Req :=
  { method := "GET", pathname := "/q",
    searchParams := [("tag", "a"), ("tag", "b")] }

end OpenapiRouter

namespace OpenapiGenerator

/-- A plain string schema (z.string()). -/
def gStr : Zod := Zod.zstring {} false false false none

/-- A plain number schema (z.number()). -/
def gNum : Zod := Zod.znumber {} false none none

/-- A plain boolean schema (z.boolean()). -/
def gBool : Zod := Zod.zboolean {}

/-- C4 fixture: the parent object schema `{a: string, b: number}`
registered as `Parent`. -/
def c4Parent : Zod :=
  Zod.zobject { openapi := some { refId := some "Parent" } }
    [("a", gStr), ("b", gNum)] UnknownKeys.strip

/-- C4 fixture: the child object schema `{a: string, b: number, c:
boolean}` registered as `Child` and marked as extending `Parent` (the
metadata `ParentSchema.extend({...})` leaves behind). -/
def c4Child : Zod :=
  Zod.zobject { openapi := some { refId := some "Child", extendedFrom := some "Parent" } }
    [("a", gStr), ("b", gNum), ("c", gBool)] UnknownKeys.strip

/-- C4 fixture: parent and child schema definitions, in registration
order. -/
def c4Defs : List ODef := [ODef.schemaDef c4Parent, ODef.schemaDef c4Child]

/-- C5 fixture: the raw component registered under `schemas`/`Foo`. -/
def c5Raw : Json := Json.jobj [("type", Json.jstr "integer")]

/-- C5 fixture: a schema definition also named `Foo`. -/
def c5FooSchema : Zod :=
  Zod.zstring { openapi := some { refId := some "Foo" } } false false false none

/-- C5 fixture: the schema definition registered first, the raw `schemas`
component with the same name registered after it. -/
def c5Defs : List ODef :=
  [ODef.schemaDef c5FooSchema, ODef.componentDef "schemas" "Foo" c5Raw]

/-- C8 fixture: a parameter schema registered under refId `P` with
parameter metadata `name: p, in: header` (what `registerParameter`
followed by `.openapi({param: {in: "header"}})` produces). -/
def c8ParamSchema : Zod :=
  Zod.zstring
    { openapi := some { refId := some "P",
                        param := some { name := some "p", loc := some "header" } } }
    false false false none

/-- C8 fixture: the parameter definition followed by a route referencing
the same schema in its query section. -/
def c8Defs : List ODef :=
  [ODef.parameterDef c8ParamSchema,
   ODef.routeDef { method := "get", path := "/x",
                   request := some { query := some [("p", c8ParamSchema)] }, responses := [] }]

end OpenapiGenerator

theorem uint32_le_iff (a b : UInt32) : (a ≤ b) ↔ a.toNat ≤ b.toNat := by
  rw [UInt32.le_def, BitVec.le_def]
  exact Iff.rfl

theorem char_toNat_toLower (c : Char) :
    (Char.toLower c).toNat = if 65 ≤ c.toNat ∧ c.toNat ≤ 90 then c.toNat + 32 else c.toNat := by
  simp only [Char.toLower]
  split
  · next h =>
    have hvalid : (c.toNat + 32).isValidChar := by
      left
      omega
    rw [Char.ofNat, dif_pos hvalid]
    simp only [Char.ofNatAux, Char.toNat, UInt32.toNat, BitVec.toNat_ofNatLt]
  · rfl

theorem isUpper_toLower (c : Char) : (Char.toLower c).isUpper = false := by
  have h := char_toNat_toLower c
  have h90 : ((90 : UInt32)).toNat = 90 := rfl
  have h65 : ((65 : UInt32)).toNat = 65 := rfl
  simp only [Char.isUpper]
  rw [Bool.and_eq_false_iff]
  by_cases hc : 65 ≤ c.toNat ∧ c.toNat ≤ 90
  · right
    rw [if_pos hc] at h
    simp only [decide_eq_false_iff_not]
    intro hle
    rw [uint32_le_iff] at hle
    simp only [Char.toNat] at h hc
    omega
  · rw [if_neg hc] at h
    rw [Decidable.not_and_iff_or_not] at hc
    rcases hc with hc | hc
    · left
      simp only [decide_eq_false_iff_not]
      intro hge
      rw [ge_iff_le, uint32_le_iff] at hge
      simp only [Char.toNat] at h hc
      omega
    · right
      simp only [decide_eq_false_iff_not]
      intro hle
      rw [uint32_le_iff] at hle
      simp only [Char.toNat] at h hc
      omega

theorem mem_lowerName_not_upper (s : String) (c : Char) (h : c ∈ (lowerName s).data) :
    c.isUpper = false := by
  simp only [lowerName, List.mem_map] at h
  obtain ⟨a, _, rfl⟩ := h
  exact isUpper_toLower a

theorem alookup_nil {α : Type} (k : String) : alookup ([] : List (String × α)) k = none := rfl

theorem alookup_cons {α : Type} (p : String × α) (m : List (String × α)) (k : String) :
    alookup (p :: m) k = if p.1 = k then some p.2 else alookup m k := by
  by_cases h : p.1 = k
  · simp only [alookup, if_pos h]
    rw [List.find?_cons_of_pos _ (by simpa using h)]
    rfl
  · simp only [alookup, if_neg h]
    rw [List.find?_cons_of_neg _ (by simpa using h)]

theorem alookup_aset_self {α : Type} (m : List (String × α)) (k : String) (v : α) :
    alookup (aset m k v) k = some v := by
  unfold aset
  split
  · next hany =>
    induction m with
    | nil => simp at hany
    | cons p rest ih =>
      by_cases hp : p.1 = k
      · simp [alookup_cons, hp]
      · simp only [List.any_cons, Bool.or_eq_true, decide_eq_true_eq] at hany
        rcases hany with hany | hany
        · exact absurd hany hp
        · simp only [List.map_cons, if_neg hp, alookup_cons, hp, if_false]
          exact ih hany
  · next hany =>
    induction m with
    | nil => simp [alookup_cons]
    | cons p rest ih =>
      simp only [List.any_cons, Bool.or_eq_true, decide_eq_true_eq] at hany
      push_neg at hany
      simp only [List.cons_append, alookup_cons, hany.1, if_false]
      exact ih (by simpa using hany.2)

theorem alookup_aset_ne {α : Type} (m : List (String × α)) (k kx : String) (v : α)
    (h : kx ≠ k) : alookup (aset m k v) kx = alookup m kx := by
  unfold aset
  split
  all_goals rename_i hcond
  all_goals clear hcond
  · induction m with
    | nil => simp
    | cons p rest ih =>
      by_cases hp : p.1 = k
      · simp only [List.map_cons, if_pos hp, alookup_cons]
        rw [if_neg (by simp [Ne.symm h]), if_neg (by rw [hp]; exact Ne.symm h)]
        exact ih
      · simp only [List.map_cons, if_neg hp, alookup_cons]
        by_cases hx : p.1 = kx
        · simp [hx]
        · rw [if_neg hx, if_neg hx]
          exact ih
  · induction m with
    | nil => simp [alookup_cons, Ne.symm h]
    | cons p rest ih =>
      simp only [List.cons_append, alookup_cons]
      by_cases hx : p.1 = kx
      · simp [hx]
      · rw [if_neg hx, if_neg hx]
        exact ih

theorem mem_aset {α : Type} {m : List (String × α)} {k : String} {v : α} {p : String × α}
    (h : p ∈ aset m k v) : p ∈ m ∨ p = (k, v) := by
  unfold aset at h
  split at h
  · rw [List.mem_map] at h
    obtain ⟨q, hq, hqe⟩ := h
    by_cases hqk : q.1 = k
    · rw [if_pos hqk] at hqe
      right
      exact hqe.symm
    · rw [if_neg hqk] at hqe
      left
      exact hqe ▸ hq
  · rw [List.mem_append] at h
    rcases h with h | h
    · left
      exact h
    · right
      simpa using h

theorem alookup_some_mem {α : Type} {m : List (String × α)} {k : String} {v : α}
    (h : alookup m k = some v) : ∃ p, p ∈ m ∧ p.1 = k ∧ p.2 = v := by
  unfold alookup at h
  obtain ⟨p, hfind, rfl⟩ : ∃ p, m.find? (fun q => q.1 = k) = some p ∧ p.2 = v := by
    cases hf : m.find? (fun q => q.1 = k) with
    | none => rw [hf] at h; simp at h
    | some p => rw [hf] at h; exact ⟨p, rfl, by simpa using h⟩
  refine ⟨p, List.mem_of_find?_eq_some hfind, ?_, rfl⟩
  have := List.find?_some hfind
  simpa using this

theorem alookup_amerge_not_mem {α : Type} (a b : List (String × α)) (k : String)
    (hb : ∀ p ∈ b, p.1 ≠ k) : alookup (amerge a b) k = alookup a k := by
  induction b generalizing a with
  | nil => rfl
  | cons q rest ih =>
    have hstep : amerge a (q :: rest) = amerge (aset a q.1 q.2) rest := rfl
    rw [hstep, ih (aset a q.1 q.2) (fun p hp => hb p (List.mem_cons_of_mem q hp))]
    exact alookup_aset_ne a q.1 k q.2 (fun he => hb q (List.mem_cons_self q rest) (he ▸ rfl))

theorem alookup_amerge_some {α : Type} (a b : List (String × α)) (k : String) (v : α)
    (hnd : (b.map Prod.fst).Nodup) (h : alookup b k = some v) :
    alookup (amerge a b) k = some v := by
  induction b generalizing a with
  | nil => simp [alookup, List.find?] at h
  | cons q rest ih =>
    have hstep : amerge a (q :: rest) = amerge (aset a q.1 q.2) rest := rfl
    rw [List.map_cons, List.nodup_cons] at hnd
    by_cases hq : q.1 = k
    · have hrest : ∀ p ∈ rest, p.1 ≠ k := by
        intro p hp he
        exact hnd.1 (by rw [hq, ← he]; exact List.mem_map_of_mem Prod.fst hp)
      rw [hstep, alookup_amerge_not_mem (aset a q.1 q.2) rest k hrest, hq]
      have : alookup (q :: rest) k = some q.2 := by
        simp [alookup_cons, hq]
      rw [this] at h
      rw [alookup_aset_self]
      simpa using h
    · have : alookup (q :: rest) k = alookup rest k := by
        simp [alookup_cons, hq]
      rw [this] at h
      rw [hstep]
      exact ih (aset a q.1 q.2) hnd.2 h

theorem alookup_of_mem_nodup {α : Type} {l : List (String × α)}
    (hnd : (l.map Prod.fst).Nodup) {k : String} {v : α} (h : (k, v) ∈ l) :
    alookup l k = some v := by
  induction l with
  | nil => simp at h
  | cons q rest ih =>
    rw [List.map_cons, List.nodup_cons] at hnd
    rcases List.mem_cons.mp h with h | h
    · simp [alookup_cons, ← h]
    · have hq : q.1 ≠ k := by
        intro he
        exact hnd.1 (he ▸ List.mem_map_of_mem Prod.fst h)
      rw [alookup_cons, if_neg hq]
      exact ih hnd.2 h

namespace OpenapiRouter

theorem handle_matched_eq_pipeline (st : RouterState) (req : Req) (route : Route)
    (mp : Option (List (String × String))) (b : V)
    (hmatch : matchRoute st req.method req.pathname = some (route, mp))
    (hbody : (if route.bodySchema.isSome then req.jsonBody else Except.ok V.stream) =
      Except.ok b) :
    handle st req = specValidationPipeline route mp req.searchParams req.headers b := by
  unfold handle
  rw [hmatch]
  simp only [hbody]
  rfl

theorem specValidationPipeline_ne_thrown (route : Route)
    (mp : Option (List (String × String))) (sp hs : List (String × String)) (b : V) :
    specValidationPipeline route mp sp hs b ≠ HandleResult.thrown := by
  unfold specValidationPipeline
  repeat' split
  all_goals simp

/-- C1: for every incoming request that matches a route (and whose body,
when a body schema is declared, parses as JSON), the router's `handle`
coincides with the spec's fail-fast pipeline: channels are validated in
the fixed order params, query, headers, body; the first failing channel
immediately produces the error response with that channel's name as the
source and no later channel result is consulted; the handler's context is
produced only when every declared channel validates.  In particular, a
params-channel failure decides the response regardless of the query,
header and body schemas. -/
theorem c1_validation_fail_fast (st : RouterState) (req : Req) (route : Route)
    (mp : Option (List (String × String))) (b : V)
    (hmatch : matchRoute st req.method req.pathname = some (route, mp))
    (hbody : (if route.bodySchema.isSome then req.jsonBody else Except.ok V.stream) =
      Except.ok b) :
    handle st req = specValidationPipeline route mp req.searchParams req.headers b ∧
    (∀ ps e, route.paramSchemas = some ps →
      validateAll ps (lookupParamV (mp.getD [])) = Except.error e →
      handle st req = HandleResult.validationError "params" e) := by
  refine ⟨handle_matched_eq_pipeline st req route mp b hmatch hbody, ?_⟩
  intro ps e hps he
  rw [handle_matched_eq_pipeline st req route mp b hmatch hbody]
  unfold specValidationPipeline
  rw [hps]
  simp only [he]

/-- C1 witness: the fixture router's route has both an invalid path
parameter and an invalid (schema-rejected, well-formed JSON) body; the
response is the params-channel error, produced without consulting the
body schema. -/
theorem c1_validation_fail_fast_witness :
    handle c1State c1Req =
      specValidationPipeline c1Route (some [("id", "7")]) [] [] (V.json (Json.jobj [])) ∧
    handle c1State c1Req = HandleResult.validationError "params" ⟨["bad-param"]⟩ := by
  refine ⟨(c1_validation_fail_fast c1State c1Req c1Route (some [("id", "7")])
    (V.json (Json.jobj [])) rfl rfl).1, ?_⟩
  exact (c1_validation_fail_fast c1State c1Req c1Route (some [("id", "7")])
    (V.json (Json.jobj [])) rfl rfl).2 [("id", rejectAll strAst "bad-param")]
    ⟨["bad-param"]⟩ rfl rfl

/-- C2: dispatch tries the exact-path map of the uppercased method first;
only on a miss does it scan the placeholder-pattern list in registration
order, taking the first match and extracting its captures as raw string
params; when the method has no routes, or neither structure matches, the
result is the 404 response with no validation performed.  In particular,
with the exact route `GET /users/list` and the pattern route
`GET /users/(id)` both registered (pattern first), a request for
`/users/list` dispatches to the exact route. -/
theorem c2_dispatch_priority :
    (∀ (st : RouterState) (req : Req),
      alookup st.routesByUppercasedMethod req.method = none →
      handle st req = HandleResult.notFound) ∧
    (∀ (st : RouterState) (method pathname : String) (routes : MethodRoutes) (r : Route),
      alookup st.routesByUppercasedMethod method = some routes →
      alookup routes.byPath pathname = some r →
      matchRoute st method pathname = some (r, none)) ∧
    (∀ (st : RouterState) (method pathname : String) (routes : MethodRoutes),
      alookup st.routesByUppercasedMethod method = some routes →
      alookup routes.byPath pathname = none →
      matchRoute st method pathname =
        (routes.patternList.find? (fun r => patternTest r.path pathname)).map
          (fun r => (r, patternExec r.path pathname))) ∧
    (∀ (st : RouterState) (req : Req),
      matchRoute st req.method req.pathname = none →
      handle st req = HandleResult.notFound) ∧
    (matchRoute c2State "GET" "/users/list" = some (c2ExactRoute, none) ∧
     patternTest c2PatternRoute.path "/users/list" = true) := by
  refine ⟨?_, ?_, ?_, ?_, rfl, rfl⟩
  · intro st req h
    unfold handle matchRoute
    rw [h]
  · intro st method pathname routes r h1 h2
    unfold matchRoute
    rw [h1]
    simp only [h2]
  · intro st method pathname routes h1 h2
    unfold matchRoute
    rw [h1]
    simp only [h2]
    cases routes.patternList.find? (fun r => patternTest r.path pathname) <;> rfl
  · intro st req h
    unfold handle
    rw [h]

/-- C2 witness: in the fixture router (pattern route registered first),
the request for `/users/list` matches the exact route — even though the
pattern `/users/(id)` also matches that pathname. -/
theorem c2_dispatch_priority_witness :
    matchRoute c2State "GET" "/users/list" = some (c2ExactRoute, none) ∧
    handle { routesByUppercasedMethod := [] }
      { method := "GET", pathname := "/x", jsonBody := Except.error () } =
      HandleResult.notFound := by
  refine ⟨c2_dispatch_priority.2.2.2.2.1, ?_⟩
  exact c2_dispatch_priority.1 { routesByUppercasedMethod := [] }
    { method := "GET", pathname := "/x", jsonBody := Except.error () } rfl

end OpenapiRouter

namespace OpenapiRouter

theorem queryGet_eq_head (sp : List (String × String)) (k : String) :
    queryGet sp k = (queryGetAll sp k).head? := by
  induction sp with
  | nil => rfl
  | cons p sp ih =>
    by_cases hp : p.1 = k
    · simp only [queryGet, queryGetAll]
      rw [List.find?_cons_of_pos _ (by simpa using hp)]
      rw [List.filter_cons_of_pos (by simpa using hp)]
      rfl
    · simp only [queryGet, queryGetAll]
      rw [List.find?_cons_of_neg _ (by simpa using hp)]
      rw [List.filter_cons_of_neg (by simpa using hp)]
      exact ih

/-- C3: each declared query key is classified as array-typed exactly when
its unwrapped schema is a `ZodArray`; an array-typed key is validated
against the list of all query-string values for that key (in order), every
other key against only the first occurrence (`searchParams.get`, which
returns the head of `searchParams.getAll`); the query loop hands exactly
these raw values to `safeParse`.  Concretely, with `?tag=a&tag=b` an
array-declared `tag` validates against `["a", "b"]` and a non-array `tag`
against only `"a"`. -/
theorem c3_query_array_handling :
    (∀ (c : SrvConfig) (qs : List (String × ZodRT)), c.reqQuery = some qs →
      extractRequestQuerySchema c = some (qs.map (fun kv =>
        { key := kv.1, schema := kv.2, isArray := isZodArray (unwrapZodType kv.2.ast) }))) ∧
    (∀ (sp : List (String × String)) (k : String),
      queryGet sp k = (queryGetAll sp k).head?) ∧
    (∀ (sp : List (String × String)) (q : QuerySchemaRT),
      queryRawValue sp q = if q.isArray then V.strList (queryGetAll sp q.key)
        else match (queryGetAll sp q.key).head? with
          | some s => V.str s
          | none => V.vnull) ∧
    (∀ (qs : List QuerySchemaRT) (sp : List (String × String)) (l : List (String × V)),
      validateQueryAll qs sp = Except.ok l →
      ∀ q ∈ qs, ∃ d, q.schema.parse (queryRawValue sp q) = Except.ok d ∧ (q.key, d) ∈ l) ∧
    (handle c3ArrState c3Req =
       HandleResult.success [] [("tag", V.strList ["a", "b"])] [] V.stream ∧
     handle c3StrState c3Req =
       HandleResult.success [] [("tag", V.str "a")] [] V.stream) := by
  refine ⟨?_, queryGet_eq_head, ?_, ?_, rfl, rfl⟩
  · intro c qs h
    unfold extractRequestQuerySchema
    rw [h]
    rfl
  · intro sp q
    unfold queryRawValue
    rw [queryGet_eq_head]
  · intro qs sp
    induction qs with
    | nil =>
      intro l h q hq
      simp at hq
    | cons q0 rest ih =>
      intro l h q hq
      unfold validateQueryAll at h
      cases hp : q0.schema.parse (queryRawValue sp q0) with
      | error e =>
        rw [hp] at h
        simp at h
      | ok d =>
        rw [hp] at h
        cases hr : validateQueryAll rest sp with
        | error e =>
          rw [hr] at h
          simp at h
        | ok l2 =>
          rw [hr] at h
          simp only [Except.ok.injEq] at h
          subst h
          rcases List.mem_cons.mp hq with rfl | hq2
          · exact ⟨d, hp, List.mem_cons_self _ _⟩
          · obtain ⟨d2, hparse, hmem⟩ := ih l2 hr q hq2
            exact ⟨d2, hparse, List.mem_cons_of_mem _ hmem⟩

/-- C3 witness: the extraction of the fixture's array-declared and
string-declared `tag` query keys, classified as the claim states. -/
theorem c3_query_array_handling_witness :
    extractRequestQuerySchema
      { method := "get", path := "/q", reqQuery := some [("tag", acceptAll arrAst)] } =
      some [{ key := "tag", schema := acceptAll arrAst, isArray := true }] ∧
    extractRequestQuerySchema
      { method := "get", path := "/q", reqQuery := some [("tag", acceptAll strAst)] } =
      some [{ key := "tag", schema := acceptAll strAst, isArray := false }] := by
  constructor
  · exact c3_query_array_handling.1
      { method := "get", path := "/q", reqQuery := some [("tag", acceptAll arrAst)] }
      [("tag", acceptAll arrAst)] rfl
  · exact c3_query_array_handling.1
      { method := "get", path := "/q", reqQuery := some [("tag", acceptAll strAst)] }
      [("tag", acceptAll strAst)] rfl

end OpenapiRouter

namespace OpenapiRouter

theorem mem_foldl_aset_key {α : Type} (l : List (String × α)) (acc : List (String × α))
    (p : String × α) (h : p ∈ l.foldl (fun a kv => aset a kv.1 kv.2) acc) :
    p ∈ acc ∨ ∃ q ∈ l, p.1 = q.1 := by
  induction l generalizing acc with
  | nil => exact Or.inl h
  | cons q rest ih =>
    simp only [List.foldl_cons] at h
    rcases ih (aset acc q.1 q.2) h with hin | ⟨q2, hq2, he⟩
    · rcases mem_aset hin with hin | he
      · exact Or.inl hin
      · exact Or.inr ⟨q, List.mem_cons_self q rest, by rw [he]⟩
    · exact Or.inr ⟨q2, List.mem_cons_of_mem _ hq2, he⟩

theorem key_of_mem_parsedHeaders (hs : List (String × String)) (p : String × String)
    (h : p ∈ parsedHeaders hs) : ∃ s, p.1 = lowerName s := by
  unfold parsedHeaders fromEntries amerge at h
  rcases mem_foldl_aset_key _ [] p h with hin | ⟨q, hq, he⟩
  · simp at hin
  · rw [List.mem_map] at hq
    obtain ⟨a, _, rfl⟩ := hq
    exact ⟨a.1, he⟩

/-- C6 (amended): the router reads declared headers from
`Object.fromEntries(request.headers.entries())`, whose keys are the sent
header names lowercased by the platform's Headers class, and looks the
DECLARED key up verbatim.  Hence matching is case-insensitive only in the
sent capitalization: (i) renaming the sent headers in any
lowercase-preserving way leaves the parsed record unchanged; (ii) an
all-lowercase declared key receives the value of a header sent under any
capitalization; (iii) a declared key containing an uppercase letter never
matches and is validated as `undefined`; (iv) concretely, a route
declaring `x-some-uuid` validates the value of a header sent as
`X-Some-Uuid`. -/
theorem c6_header_lookup_lowercased :
    (∀ (f : String → String), (∀ x, lowerName (f x) = lowerName x) →
      ∀ hs : List (String × String),
        parsedHeaders (hs.map (fun p => (f p.1, p.2))) = parsedHeaders hs) ∧
    (∀ (sent v k : String), lowerName sent = k →
      lookupHeaderV (parsedHeaders [(sent, v)]) k = V.str v) ∧
    (∀ k : String, (∃ c ∈ k.data, c.isUpper = true) →
      ∀ hs : List (String × String), lookupHeaderV (parsedHeaders hs) k = V.undef) ∧
    handle c6State c6Req =
      HandleResult.success [] [] [("x-some-uuid", V.str "abc")] V.stream := by
  refine ⟨?_, ?_, ?_, rfl⟩
  · intro f hf hs
    unfold parsedHeaders
    rw [List.map_map]
    have hcomp : ((fun p => (lowerName p.1, p.2)) ∘ fun p : String × String => (f p.1, p.2)) =
        (fun p : String × String => (lowerName p.1, p.2)) := by
      funext p
      simp [Function.comp, hf]
    rw [hcomp]
  · intro sent v k h
    unfold lookupHeaderV parsedHeaders fromEntries
    simp only [List.map_cons, List.map_nil]
    have hm : amerge [] [(lowerName sent, v)] = [(lowerName sent, v)] := rfl
    rw [hm, h, alookup_cons]
    simp
  · intro k hk hs
    unfold lookupHeaderV
    have hnone : alookup (parsedHeaders hs) k = none := by
      cases hl : alookup (parsedHeaders hs) k with
      | none => rfl
      | some v =>
        obtain ⟨p, hmem, hpk, _⟩ := alookup_some_mem hl
        obtain ⟨s, hps⟩ := key_of_mem_parsedHeaders hs p hmem
        obtain ⟨c, hcmem, hcup⟩ := hk
        rw [← hpk, hps] at hcmem
        rw [mem_lowerName_not_upper s c hcmem] at hcup
        cases hcup
    rw [hnone]

/-- C6 counterexample: the claim's own example — the route declares
`X-Some-Uuid`, the request sends `x-some-uuid` — is validated against
undefined, not against the header's value: header validation fails with
the schema's missing-value issue even though the schema accepts the sent
value. -/
theorem c6_header_case_counterexample :
    handle c6CexState c6CexReq = HandleResult.validationError "headers" ⟨["Required"]⟩ ∧
    (acceptStr strAst).parse (V.str "ccf47b7e-0c7d-4fe7-a830-73b1253e0b5d") =
      Except.ok (V.str "ccf47b7e-0c7d-4fe7-a830-73b1253e0b5d") :=
  ⟨rfl, rfl⟩

/-- C6 witness: a header sent as `X-Some-Uuid` is found under the declared
all-lowercase key `x-some-uuid`, and the fixture request succeeds with the
header's value. -/
theorem c6_header_lookup_lowercased_witness :
    lookupHeaderV (parsedHeaders [("X-Some-Uuid", "abc")]) "x-some-uuid" = V.str "abc" ∧
    handle c6State c6Req =
      HandleResult.success [] [] [("x-some-uuid", V.str "abc")] V.stream := by
  refine ⟨c6_header_lookup_lowercased.2.1 "X-Some-Uuid" "abc" "x-some-uuid" (by decide), ?_⟩
  exact c6_header_lookup_lowercased.2.2.2

end OpenapiRouter

namespace OpenapiRouter

/-- C7 (amended): whenever a matched route declares a body schema,
`handle` runs `request.json()` before any channel is validated; a
malformed-JSON body therefore propagates as a thrown exception out of
`handle` — regardless of whether params, query or headers would also fail
— rather than being turned into a structured validation-error response,
and it never becomes an `undefined` body handed to validation.  When the
body does parse (or no body schema is declared), `handle` never throws:
every validation failure is returned as a structured error response. -/
theorem c7_body_parse_behaviour (st : RouterState) (req : Req) (route : Route)
    (mp : Option (List (String × String)))
    (hmatch : matchRoute st req.method req.pathname = some (route, mp)) :
    (route.bodySchema.isSome → req.jsonBody = Except.error () →
      handle st req = HandleResult.thrown) ∧
    (∀ b, (if route.bodySchema.isSome then req.jsonBody else Except.ok V.stream) =
        Except.ok b →
      handle st req ≠ HandleResult.thrown) := by
  constructor
  · intro hbs hjson
    unfold handle
    rw [hmatch]
    simp only [hbs, if_pos, hjson]
  · intro b hbody
    rw [handle_matched_eq_pipeline st req route mp b hmatch hbody]
    exact specValidationPipeline_ne_thrown route mp req.searchParams req.headers b

/-- C7 counterexample: a malformed-JSON request for a route with a body
schema — and an invalid path parameter — makes `handle` throw: the outcome
is the propagated exception, not a params-channel or body-channel
validation-error response, contradicting the claim that malformed JSON is
surfaced as a recoverable error response rather than an unhandled
exception. -/
theorem c7_malformed_json_counterexample :
    handle c7ParamState c7ParamReq = HandleResult.thrown ∧
    handle c7State c7Req = HandleResult.thrown :=
  ⟨rfl, rfl⟩

/-- C7 witness: the amended behaviour at the fixtures — a malformed body
throws, a well-formed body on the C1 fixture (whose params fail) does
not throw. -/
theorem c7_body_parse_behaviour_witness :
    handle c7State c7Req = HandleResult.thrown ∧
    handle c1State c1Req ≠ HandleResult.thrown := by
  constructor
  · exact (c7_body_parse_behaviour c7State c7Req
      (mkRoute { method := "post", path := "/b",
                 reqBodyContent := some [("application/json", Sum.inl (acceptAll strAst))] })
      none rfl).1 rfl rfl
  · exact (c7_body_parse_behaviour c1State c1Req c1Route (some [("id", "7")]) rfl).2
      (V.json (Json.jobj [])) rfl

end OpenapiRouter

namespace OpenapiRouter

theorem memoCalls_cached (n : Nat) (p nid cr : Nat) :
    memoCalls n { memoized := some p, nextId := nid, createRuns := cr } =
      (List.replicate n p, { memoized := some p, nextId := nid, createRuns := cr }) := by
  induction n with
  | zero => rfl
  | succ n ih =>
    simp [memoCalls, memoCall, ih, List.replicate]

/-- C9: the thunk `memoizePromise` returns is idempotent and single-flight:
zero calls run nothing, and in any sequence of `n + 1` calls — including
calls made before the first computation settles, since the created promise
is stored synchronously — every call returns the identical promise (the
one allocated by the single run of `create`), `create` runs exactly once,
and that promise stays cached.  Every request to the generated-document
endpoint invokes this thunk, so all such requests observe the same
promise and hence the same document, the result of the first (only)
computation. -/
theorem c9_memoize_single_flight (n : Nat) :
    memoCalls 0 {} = ([], {}) ∧
    memoCalls (n + 1) {} =
      (List.replicate (n + 1) 0, { memoized := some 0, nextId := 1, createRuns := 1 }) := by
  refine ⟨rfl, ?_⟩
  have h1 : memoCall {} = (0, { memoized := some 0, nextId := 1, createRuns := 1 }) := rfl
  simp [memoCalls, h1, memoCalls_cached, List.replicate]

/-- C10: a query key is classified as array-typed (isArray = true) exactly
when stripping only ZodOptional, ZodNullable, ZodDefault and
refinement-type ZodEffects layers reaches a ZodArray; a preprocess-type
ZodEffects wrapper is not stripped, so an array schema wrapped in
z.preprocess is classified non-array and the router reads only a single
query-string value for it (here `"a"` out of `?tag=a&tag=b`), while a
refinement-wrapped array is still classified as an array. -/
theorem c10_preprocess_not_unwrapped :
    (∀ z : Zod, isZodArray (unwrapZodType z) = true ↔ ReachesArrayByUnwrap z) ∧
    extractRequestQuerySchema
      { method := "get", path := "/q",
        reqQuery := some [("tag", acceptAll preprocessArrAst)] } =
      some [{ key := "tag", schema := acceptAll preprocessArrAst, isArray := false }] ∧
    ¬ ReachesArrayByUnwrap preprocessArrAst ∧
    handle c10State c10Req = HandleResult.success [] [("tag", V.str "a")] [] V.stream ∧
    isZodArray (unwrapZodType (Zod.zeffects {} EffKind.refinement arrAst)) = true := by
  have hiff : ∀ z : Zod, isZodArray (unwrapZodType z) = true ↔ ReachesArrayByUnwrap z := by
    intro z
    constructor
    · intro h
      induction z using unwrapZodType.induct with
      | case1 d i ih =>
        rw [unwrapZodType] at h
        exact ReachesArrayByUnwrap.opt d i (ih h)
      | case2 d i ih =>
        rw [unwrapZodType] at h
        exact ReachesArrayByUnwrap.nul d i (ih h)
      | case3 d i ih =>
        rw [unwrapZodType] at h
        exact ReachesArrayByUnwrap.dflt d i (ih h)
      | case4 d i ih =>
        simp only [unwrapZodType] at h
        exact ReachesArrayByUnwrap.refine d i (ih h)
      | case5 d e i hne =>
        cases e with
        | refinement => exact absurd rfl hne
        | preprocess => simp [unwrapZodType, isZodArray] at h
        | transform => simp [unwrapZodType, isZodArray] at h
      | case6 z h1 h2 h3 h4 =>
        cases z
        case zarray d item mn mx => exact ReachesArrayByUnwrap.arr d item mn mx
        case zoptional d i => exact absurd rfl (h1 d i)
        case znullable d i => exact absurd rfl (h2 d i)
        case zdefault d i => exact absurd rfl (h3 d i)
        case zeffects d e i => exact absurd rfl (h4 d e i)
        all_goals simp [unwrapZodType, isZodArray] at h
    · intro h
      induction h with
      | arr d item mn mx => rfl
      | opt d i _ ih => simpa [unwrapZodType] using ih
      | nul d i _ ih => simpa [unwrapZodType] using ih
      | dflt d i _ ih => simpa [unwrapZodType] using ih
      | refine d i _ ih => simpa [unwrapZodType] using ih
  refine ⟨hiff, rfl, ?_, rfl, rfl⟩
  intro h
  cases h

end OpenapiRouter

namespace OpenapiGenerator

/-- C4 fixture: the node the generator registers for `Parent`. -/
def c4ParentNode : Json :=
  Json.jobj [("type", Json.jstr "object"),
    ("properties", Json.jobj
      [("a", Json.jobj [("type", Json.jstr "string")]),
       ("b", Json.jobj [("type", Json.jstr "number")])]),
    ("required", Json.jarr [Json.jstr "a", Json.jstr "b"])]

/-- C4 fixture: the diffed node the generator emits for `Child`. -/
def c4ChildNode : Json :=
  Json.jobj [("allOf", Json.jarr
    [Json.jobj [("$ref", Json.jstr "#/components/schemas/Parent")],
     Json.jobj [("type", Json.jstr "object"),
       ("properties", Json.jobj [("c", Json.jobj [("type", Json.jstr "boolean")])]),
       ("required", Json.jarr [Json.jstr "c"])]])]

/-- C4 fixture: the expected generated document for `c4Defs`. -/
def c4ExpectedDoc : Json :=
  Json.jobj
    [("components", Json.jobj
      [("schemas", Json.jobj [("Parent", c4ParentNode), ("Child", c4ChildNode)]),
       ("parameters", Json.jobj [])]),
     ("paths", Json.jobj [])]

/-- C4 fixture: the generator state after `Parent` has been registered. -/
def c4StRegistered : GenState := { schemaRefs := [("Parent", c4ParentNode)] }

/-- C4 fixture: the child's shape. -/
def c4ChildShape : List (String × Zod) := [("a", gStr), ("b", gNum), ("c", gBool)]

/-- C4 fixture: the child's `_def` data. -/
def c4ChildDefc : DefCommon :=
  { openapi := some { refId := some "Child", extendedFrom := some "Parent" } }

/-- The C4 fixtures as explicit `ZodObject` pieces: the parent's shape and
`_def` data. -/
def c4ParentShape : List (String × Zod) := [("a", gStr), ("b", gNum)]

/-- C4 fixture: the parent's `_def` data. -/
def c4ParentDefc : DefCommon := { openapi := some { refId := some "Parent" } }

theorem c4Parent_eq : c4Parent = Zod.zobject c4ParentDefc c4ParentShape UnknownKeys.strip := rfl

theorem c4Child_eq : c4Child = Zod.zobject c4ChildDefc c4ChildShape UnknownKeys.strip := rfl

/-- C4 fixture: the generator state after both `Parent` and `Child` have
been registered. -/
def c4St2 : GenState := { schemaRefs := [("Parent", c4ParentNode), ("Child", c4ChildNode)] }

theorem c4_object_general :
    ∀ (st : GenState) (d : DefCommon) (shape : List (String × Zod)) (uk : UnknownKeys)
      (p : String) (parentNode : Json) (props : List (String × Json)),
      d.openapi.bind (fun m => m.extendedFrom) = some p →
      alookup st.schemaRefs p = some parentNode →
      seqExceptPairs (shape.attach.map (fun x => (x.1.1, generateInnerSchema st x.1.2))) =
        Except.ok props →
      uk ≠ UnknownKeys.passthrough →
      toOpenapiObjectSchema st d shape uk false =
        (let parentProps := registeredPropertiesOf parentNode
         let alreadyReg := (parentProps.map Prod.fst).filter
           (fun k => objectEquals (alookup props k) (alookup parentProps k))
         let childProps := props.filter (fun kv => !(alreadyReg.contains kv.1))
         let required0 := (shape.filter (fun kv => !(isOptionalSchema kv.2))).map (fun kv => kv.1)
         let childRequired := required0.filter
           (fun k => !((registeredRequiredOf parentNode).contains k))
         Except.ok (Json.jobj [("allOf", Json.jarr
           [Json.jobj [("$ref", Json.jstr ("#/components/schemas/" ++ p))],
            Json.jobj ([("type", Json.jstr "object"), ("properties", Json.jobj childProps)]
              ++ (if childRequired.length > 0 then
                    [("required", Json.jarr (childRequired.map Json.jstr))]
                  else []))])])) := by
  intro st d shape uk p parentNode props hext hreg hprops huk
  unfold toOpenapiObjectSchema
  simp only [hprops, hext, hreg, if_neg huk]
  simp

theorem toOpenapiSchema_zobject (st : GenState) (d : DefCommon) (shape : List (String × Zod))
    (uk : UnknownKeys) (isNb : Bool) :
    toOpenapiSchema st (Zod.zobject d shape uk) isNb = toOpenapiObjectSchema st d shape uk isNb := by
  simp only [toOpenapiSchema]

theorem generateSimpleSchema_plain (st : GenState) (z : Zod) (m : OMeta) (r : String)
    (node : Json)
    (hm : z.defc.openapi.orElse (fun x => (unwrapChained z).defc.openapi) = some m)
    (href : m.refId = some r) (hrne : r ≠ "")
    (hlook : alookup st.schemaRefs r = none)
    (hmt : m.mtype = none)
    (h : toOpenapiSchema st (unwrapChained z) z.isNullable = Except.ok node) :
    generateSimpleSchema st z = Except.ok (applySchemaMetadata node m) := by
  unfold generateSimpleSchema
  simp only [hm, href, hlook, hmt, h, Option.some_bind, if_neg hrne]

theorem generateSchemaDefinition_ok (st : GenState) (z : Zod) (node : Json) (r : String)
    (href : (getMetadata z).refId = some r) (hrne : r ≠ "")
    (h : generateSimpleSchema st z = Except.ok node) :
    generateSchemaDefinition st z = Except.ok
      { st with schemaRefs := aset st.schemaRefs r (applySchemaMetadata node (getMetadata z)) } := by
  unfold generateSchemaDefinition
  simp only [h, href, if_neg hrne]

theorem generateParameterDefinition_ok (st : GenState) (z : Zod) (node : Json) (r : String)
    (href : (getMetadata z).refId = some r) (hrne : r ≠ "")
    (h : generateParameter st z = Except.ok node) :
    generateParameterDefinition st z = Except.ok
      { st with paramRefs := aset st.paramRefs r node } := by
  unfold generateParameterDefinition
  simp only [h, href, if_neg hrne]

theorem foldlM_generateSingle_cons (st st2 : GenState) (d : ODef) (ds : List ODef)
    (h : generateSingle st d = Except.ok st2) :
    List.foldlM generateSingle st (d :: ds) = List.foldlM generateSingle st2 ds := by
  simp only [List.foldlM]
  rw [h]
  rfl

theorem foldlM_generateSingle_err (st : GenState) (e : GenError) (d : ODef) (ds : List ODef)
    (h : generateSingle st d = Except.error e) :
    List.foldlM generateSingle st (d :: ds) = Except.error e := by
  simp only [List.foldlM]
  rw [h]
  rfl

theorem generateDocument_eval (defs : List ODef) (config : List (String × Json)) (st : GenState)
    (h : List.foldlM generateSingle ({} : GenState) (sortDefinitions defs) = Except.ok st) :
    generateDocument defs config = Except.ok (Json.jobj (config
      ++ [("components", buildComponents st), ("paths", Json.jobj st.pathRefs)])) := by
  unfold generateDocument
  simp only [h]

theorem generateDocument_eval_err (defs : List ODef) (config : List (String × Json))
    (e : GenError)
    (h : List.foldlM generateSingle ({} : GenState) (sortDefinitions defs) = Except.error e) :
    generateDocument defs config = Except.error e := by
  unfold generateDocument
  simp only [h]

theorem c4_parent_props :
    seqExceptPairs (c4ParentShape.attach.map
        (fun x => (x.1.1, generateInnerSchema ({} : GenState) x.1.2))) =
      Except.ok [("a", Json.jobj [("type", Json.jstr "string")]),
                 ("b", Json.jobj [("type", Json.jstr "number")])] := by
  simp [seqExceptPairs, List.attach, List.attachWith, List.pmap, generateInnerSchema,
    generateSimpleSchema, toOpenapiSchema, unwrapChained, Zod.defc, Zod.isNullable,
    mapStringFormat, optField, getMetadata, Option.orElse, c4ParentShape, gStr, gNum]

theorem c4_parent_object :
    toOpenapiObjectSchema ({} : GenState) c4ParentDefc c4ParentShape UnknownKeys.strip false =
      Except.ok c4ParentNode := by
  unfold toOpenapiObjectSchema
  simp only [c4_parent_props]
  rfl

theorem c4_parent_simple :
    generateSimpleSchema ({} : GenState) c4Parent = Except.ok c4ParentNode := by
  have hopen : c4ParentDefc.openapi = some { refId := some "Parent" } := rfl
  have hunwrap : unwrapChained (Zod.zobject c4ParentDefc c4ParentShape UnknownKeys.strip) =
      Zod.zobject c4ParentDefc c4ParentShape UnknownKeys.strip := rfl
  rw [c4Parent_eq]
  unfold generateSimpleSchema
  simp [hunwrap, hopen, toOpenapiSchema, Zod.defc, Zod.isNullable, Option.orElse, alookup,
    c4_parent_object, applySchemaMetadata, buildSchemaMetadata, optField, amerge, c4ParentNode]

theorem c4_step_parent :
    generateSingle ({} : GenState) (ODef.schemaDef c4Parent) = Except.ok c4StRegistered := by
  rw [show generateSingle ({} : GenState) (ODef.schemaDef c4Parent) =
      generateSchemaDefinition ({} : GenState) c4Parent from rfl]
  rw [generateSchemaDefinition_ok ({} : GenState) c4Parent c4ParentNode "Parent" rfl
    (by decide) c4_parent_simple]
  rfl

theorem c4_child_props :
    seqExceptPairs (c4ChildShape.attach.map
        (fun x => (x.1.1, generateInnerSchema c4StRegistered x.1.2))) =
      Except.ok [("a", Json.jobj [("type", Json.jstr "string")]),
                 ("b", Json.jobj [("type", Json.jstr "number")]),
                 ("c", Json.jobj [("type", Json.jstr "boolean")])] := by
  simp [seqExceptPairs, List.attach, List.attachWith, List.pmap, generateInnerSchema,
    generateSimpleSchema, toOpenapiSchema, unwrapChained, Zod.defc, Zod.isNullable,
    mapStringFormat, optField, getMetadata, Option.orElse, c4ChildShape, gStr, gNum, gBool]

theorem c4_child_object :
    toOpenapiObjectSchema c4StRegistered c4ChildDefc c4ChildShape UnknownKeys.strip false =
      Except.ok c4ChildNode := by
  have h := c4_object_general c4StRegistered c4ChildDefc c4ChildShape UnknownKeys.strip
    "Parent" c4ParentNode _ rfl rfl c4_child_props (by simp)
  rw [h]
  rfl

theorem c4_child_simple :
    generateSimpleSchema c4StRegistered c4Child = Except.ok c4ChildNode := by
  rw [c4Child_eq]
  rw [generateSimpleSchema_plain c4StRegistered
    (Zod.zobject c4ChildDefc c4ChildShape UnknownKeys.strip)
    { refId := some "Child", extendedFrom := some "Parent" } "Child" c4ChildNode
    rfl rfl (by decide) rfl rfl
    ((toOpenapiSchema_zobject c4StRegistered c4ChildDefc c4ChildShape
      UnknownKeys.strip false).trans c4_child_object)]
  rfl

theorem c4_step_child :
    generateSingle c4StRegistered (ODef.schemaDef c4Child) = Except.ok c4St2 := by
  rw [show generateSingle c4StRegistered (ODef.schemaDef c4Child) =
      generateSchemaDefinition c4StRegistered c4Child from rfl]
  rw [generateSchemaDefinition_ok c4StRegistered c4Child c4ChildNode "Child" rfl
    (by decide) c4_child_simple]
  rfl

theorem c4_foldlM : List.foldlM generateSingle ({} : GenState) c4Defs = Except.ok c4St2 := by
  rw [show (c4Defs : List ODef) =
      ODef.schemaDef c4Parent :: [ODef.schemaDef c4Child] from rfl]
  rw [foldlM_generateSingle_cons _ _ _ _ c4_step_parent]
  rw [foldlM_generateSingle_cons _ _ _ _ c4_step_child]
  rfl

theorem c4_doc_eval : generateDocument c4Defs [] = Except.ok c4ExpectedDoc := by
  rw [generateDocument_eval c4Defs [] c4St2
    (by rw [show sortDefinitions c4Defs = c4Defs from rfl]; exact c4_foldlM)]
  rfl

/-- C4: for a child object schema marked as extending a registered parent
schema, the generated node is `allOf [$ref parent, childObject]`, where
childObject's property set is the child's generated properties MINUS every
key whose generated node is structurally equal (by value, not identity) to
the parent's already-emitted property of the same name, and childObject's
required list is the child's non-optional keys MINUS every key the parent
already requires (present only when non-empty).  Concretely, for parent
`{a: string, b: number}` registered as `Parent` and child `{a, b, c}`
extending it, the generated child node carries only the property `c` and
`required [c]` — `a` and `b` do not reappear. -/
theorem c4_inheritance_diffing :
    (∀ (st : GenState) (d : DefCommon) (shape : List (String × Zod)) (uk : UnknownKeys)
       (p : String) (parentNode : Json) (props : List (String × Json)),
      d.openapi.bind (fun m => m.extendedFrom) = some p →
      alookup st.schemaRefs p = some parentNode →
      seqExceptPairs (shape.attach.map (fun x => (x.1.1, generateInnerSchema st x.1.2))) =
        Except.ok props →
      uk ≠ UnknownKeys.passthrough →
      toOpenapiObjectSchema st d shape uk false =
        (let parentProps := registeredPropertiesOf parentNode
         let alreadyReg := (parentProps.map Prod.fst).filter
           (fun k => objectEquals (alookup props k) (alookup parentProps k))
         let childProps := props.filter (fun kv => !(alreadyReg.contains kv.1))
         let required0 := (shape.filter (fun kv => !(isOptionalSchema kv.2))).map (fun kv => kv.1)
         let childRequired := required0.filter
           (fun k => !((registeredRequiredOf parentNode).contains k))
         Except.ok (Json.jobj [("allOf", Json.jarr
           [Json.jobj [("$ref", Json.jstr ("#/components/schemas/" ++ p))],
            Json.jobj ([("type", Json.jstr "object"), ("properties", Json.jobj childProps)]
              ++ (if childRequired.length > 0 then
                    [("required", Json.jarr (childRequired.map Json.jstr))]
                  else []))])]))) ∧
    generateDocument c4Defs [] = Except.ok c4ExpectedDoc :=
  ⟨c4_object_general, c4_doc_eval⟩

/-- C4 witness: the general diffing theorem applied to the `Child` fixture
over the state in which `Parent` is registered yields exactly the claim's
child node. -/
theorem c4_inheritance_diffing_witness :
    toOpenapiObjectSchema c4StRegistered c4ChildDefc c4ChildShape UnknownKeys.strip false =
      Except.ok c4ChildNode := by
  have h := c4_inheritance_diffing.1 c4StRegistered c4ChildDefc c4ChildShape UnknownKeys.strip
    "Parent" c4ParentNode _ rfl rfl c4_child_props (by simp)
  rw [h]
  rfl

end OpenapiGenerator

namespace OpenapiGenerator

/-- C5 fixture: the document `generateDocument c5Defs []` produces — the
generated string schema occupies `components.schemas.Foo` even though the
raw component of the same name was registered later. -/
def c5Doc : Json :=
  Json.jobj
    [("components", Json.jobj
       [("schemas", Json.jobj [("Foo", Json.jobj [("type", Json.jstr "string")])]),
        ("parameters", Json.jobj [])]),
     ("paths", Json.jobj [])]

theorem rawComponentsRecord_append (rcs : List RawComponent) (rc : RawComponent) :
    rawComponentsRecord { rawComponents := rcs ++ [rc] } =
      aset (rawComponentsRecord { rawComponents := rcs }) rc.componentType
        (Json.jobj (aset (((alookup (rawComponentsRecord { rawComponents := rcs })
          rc.componentType).getD (Json.jobj [])).fields) rc.name rc.component)) := by
  simp [rawComponentsRecord, List.foldl_append]

/-- C5: the precedence actually implemented by `buildComponents`.  The
generated schema-ref and parameter-ref tables are spread over the raw
`schemas` and `parameters` buckets, so a generated entry wins over a raw
component of the same name no matter which was registered later; only
among raw components of the same (kind, name) does the later registration
win. -/
theorem c5_components_precedence :
    (∀ (st : GenState) (n : String) (node : Json),
      (st.schemaRefs.map Prod.fst).Nodup →
      alookup st.schemaRefs n = some node →
      ((buildComponents st).get "schemas").bind (fun b => b.get n) = some node) ∧
    (∀ (st : GenState) (n : String) (node : Json),
      (st.paramRefs.map Prod.fst).Nodup →
      alookup st.paramRefs n = some node →
      ((buildComponents st).get "parameters").bind (fun b => b.get n) = some node) ∧
    (∀ (rcs : List RawComponent) (rc : RawComponent),
      ((alookup (rawComponentsRecord { rawComponents := rcs ++ [rc] })
          rc.componentType).getD (Json.jobj [])).get rc.name = some rc.component) := by
  refine ⟨?_, ?_, ?_⟩
  · intro st n node hnd h
    unfold buildComponents
    simp only [Json.get, Json.fields]
    rw [alookup_aset_ne _ _ _ _ (by decide), alookup_aset_self]
    simp only [Option.some_bind, Json.get, Json.fields]
    exact alookup_amerge_some _ _ _ _ hnd h
  · intro st n node hnd h
    unfold buildComponents
    simp only [Json.get, Json.fields]
    rw [alookup_aset_self]
    simp only [Option.some_bind, Json.get, Json.fields]
    exact alookup_amerge_some _ _ _ _ hnd h
  · intro rcs rc
    rw [rawComponentsRecord_append, alookup_aset_self]
    simp only [Option.getD_some, Json.get, Json.fields]
    exact alookup_aset_self _ _ _

/-- C5 fixture: a generated parameter node for the witness. -/
def c5PNode : Json := Json.jobj [("in", Json.jstr "query"), ("name", Json.jstr "p")]

/-- C5 fixture: a state holding a generated schema ref, a generated
parameter ref and a raw `schemas` component whose name clashes with the
generated schema ref. -/
def c5St : GenState :=
  { schemaRefs := [("Foo", Json.jobj [("type", Json.jstr "string")])],
    paramRefs := [("P", c5PNode)],
    rawComponents := [⟨"schemas", "Foo", c5Raw⟩] }

/-- C5 witness: the precedence theorem applied at the clashing fixture
state — the generated `Foo` and `P` win their buckets, and the raw `Foo`
is the last-written entry of the raw record. -/
theorem c5_components_precedence_witness :
    ((buildComponents c5St).get "schemas").bind (fun b => b.get "Foo") =
        some (Json.jobj [("type", Json.jstr "string")]) ∧
    ((buildComponents c5St).get "parameters").bind (fun b => b.get "P") = some c5PNode ∧
    ((alookup (rawComponentsRecord { rawComponents := [] ++ [⟨"schemas", "Foo", c5Raw⟩] })
        "schemas").getD (Json.jobj [])).get "Foo" = some c5Raw :=
  ⟨c5_components_precedence.1 c5St "Foo" _ (by simp [c5St]) (by simp [c5St, alookup_cons]),
   c5_components_precedence.2.1 c5St "P" _ (by simp [c5St]) (by simp [c5St, alookup_cons]),
   c5_components_precedence.2.2 [] ⟨"schemas", "Foo", c5Raw⟩⟩

theorem c5_foo_simple :
    generateSimpleSchema ({ rawComponents := [⟨"schemas", "Foo", c5Raw⟩] } : GenState)
      c5FooSchema = Except.ok (Json.jobj [("type", Json.jstr "string")]) := by
  simp [generateSimpleSchema, toOpenapiSchema, unwrapChained, getMetadata, Zod.defc,
    Zod.isNullable, mapStringFormat, optField, applySchemaMetadata, buildSchemaMetadata,
    amerge, alookup, Option.orElse, c5FooSchema]

theorem c5_doc_eval : generateDocument c5Defs [] = Except.ok c5Doc := by
  unfold generateDocument
  have hs : sortDefinitions c5Defs =
      [ODef.componentDef "schemas" "Foo" c5Raw, ODef.schemaDef c5FooSchema] := rfl
  rw [hs]
  have hm : getMetadata c5FooSchema = { refId := some "Foo" } := rfl
  simp [List.foldlM, generateSingle, generateSchemaDefinition, hm, c5_foo_simple, bind,
    Except.bind, pure, Except.pure]
  rfl

/-- C5 counterexample (closed): the raw `schemas`/`Foo` component is
registered after the `Foo` schema definition, yet the document keeps the
generated entry — refuting last-registration-wins across raw and generated
entries. -/
theorem c5_raw_after_generated_counterexample :
    generateDocument c5Defs [] = Except.ok c5Doc ∧
    ((((c5Doc.get "components").getD Json.jnull).get "schemas").getD Json.jnull).get "Foo" =
      some (Json.jobj [("type", Json.jstr "string")]) ∧
    Json.jobj [("type", Json.jstr "string")] ≠ c5Raw := by
  refine ⟨c5_doc_eval, by simp [c5Doc, Json.get, Json.fields, alookup_cons], by simp [c5Raw]⟩

end OpenapiGenerator

namespace OpenapiGenerator

theorem objectEquals_str (a b : String) :
    objectEquals (some (Json.jstr a)) (some (Json.jstr b)) = (a == b) := rfl

/-- C8 fixtures: the registered parameter node for `p` at `header`, along
with the state, metadata and usage sites the witness instantiates the
conflict theorem at. -/
def c8RegNode : Json :=
  Json.jobj [("in", Json.jstr "header"), ("name", Json.jstr "p"),
             ("schema", Json.jobj [("type", Json.jstr "string")]),
             ("required", Json.jbool true)]

/-- C8 fixture: a generator state with `P` registered. -/
def c8St : GenState := { paramRefs := [("P", c8RegNode)] }

/-- C8 fixture: the metadata of `c8ParamSchema`. -/
def c8Meta : OMeta :=
  { refId := some "P", param := some { name := some "p", loc := some "header" } }

theorem c8_schema_node :
    generateSimpleSchema ({} : GenState) c8ParamSchema =
      Except.ok (Json.jobj [("type", Json.jstr "string")]) := by
  simp [generateSimpleSchema, toOpenapiSchema, unwrapChained, getMetadata, Zod.defc,
    Zod.isNullable, mapStringFormat, optField, applySchemaMetadata, buildSchemaMetadata,
    amerge, alookup, Option.orElse, c8ParamSchema]

theorem c8_param_node_eval :
    generateParameter ({} : GenState) c8ParamSchema = Except.ok c8RegNode := by
  have hm : getMetadata c8ParamSchema = c8Meta := rfl
  simp only [generateParameter, hm, c8_schema_node]
  rfl

theorem c8_step_param :
    generateSingle ({} : GenState) (ODef.parameterDef c8ParamSchema) = Except.ok c8St := by
  rw [show generateSingle ({} : GenState) (ODef.parameterDef c8ParamSchema) =
      generateParameterDefinition ({} : GenState) c8ParamSchema from rfl]
  rw [generateParameterDefinition_ok ({} : GenState) c8ParamSchema c8RegNode "P" rfl
    (by decide) c8_param_node_eval]
  rfl

theorem c8_foldlM :
    List.foldlM generateSingle ({} : GenState) c8Defs = Except.error (GenError.conflict
      "Conflicting location for parameter p" "in" ["header", "query", "header"]) := by
  rw [show (c8Defs : List ODef) = ODef.parameterDef c8ParamSchema ::
      [ODef.routeDef { method := "get", path := "/x",
                       request := some { query := some [("p", c8ParamSchema)] },
                       responses := [] }] from rfl]
  rw [foldlM_generateSingle_cons _ _ _ _ c8_step_param]
  exact foldlM_generateSingle_err _ _ _ _ rfl

theorem c8_doc_eval :
    generateDocument c8Defs [] = Except.error (GenError.conflict
      "Conflicting location for parameter p" "in" ["header", "query", "header"]) := by
  exact generateDocument_eval_err c8Defs [] _
    (by rw [show sortDefinitions c8Defs = c8Defs from rfl]; exact c8_foldlM)

/-- C8: conflict detection for registered parameter refs.  (1) When a
schema referring to registered parameter `refId` is used at a location
`loc` different from the registered location `regLoc` (also carried by the
schema's own `param` metadata), `getParameterRef` fails with a
`ConflictError` whose key is `in` and whose values list both competing
locations (`[regLoc, loc, regLoc]`).  (2) Symmetrically, a mismatch
between the registered name and the usage-site key fails with key `name`
and values `[regName, key, regName]`.  (3) `generateInlineParameterOne`
propagates `getParameterRef` errors unchanged, so route generation
surfaces them.  (4) Concretely, registering parameter `p` at `header` and
then referencing the same schema in a route's `query` section makes
`generateDocument` fail with key `in` and values
`["header", "query", "header"]`. -/
theorem c8_parameter_conflicts :
    (∀ (st : GenState) (m : OMeta) (ext : ParameterData) (refId : String) (node : Json)
       (pm : PMeta) (regLoc loc : String),
      m.refId = some refId → refId ≠ "" →
      alookup st.paramRefs refId = some node →
      Json.get node "in" = some (Json.jstr regLoc) →
      m.param = some pm → pm.loc = some regLoc →
      ext.loc = some loc → regLoc ≠ "" → loc ≠ "" → regLoc ≠ loc →
      getParameterRef st m ext = Except.error (GenError.conflict
        ("Conflicting location for parameter " ++ jShowName (Json.get node "name")) "in"
        [regLoc, loc, regLoc])) ∧
    (∀ (st : GenState) (m : OMeta) (ext : ParameterData) (refId : String) (node : Json)
       (pm : PMeta) (loc regName key : String),
      m.refId = some refId → refId ≠ "" →
      alookup st.paramRefs refId = some node →
      Json.get node "in" = some (Json.jstr loc) →
      Json.get node "name" = some (Json.jstr regName) →
      m.param = some pm → pm.loc = some loc → pm.name = some regName →
      ext.loc = some loc → ext.name = some key →
      regName ≠ "" → key ≠ "" → regName ≠ key →
      getParameterRef st m ext = Except.error (GenError.conflict
        "Conflicting names for parameter" "name" [regName, key, regName])) ∧
    (∀ (st : GenState) (key : String) (schema : Zod) (location : String) (e : GenError),
      getParameterRef st (getMetadata schema)
          { loc := some location, name := some key } = Except.error e →
      generateInlineParameterOne st key schema location = Except.error e) ∧
    generateDocument c8Defs [] = Except.error (GenError.conflict
      "Conflicting location for parameter p" "in" ["header", "query", "header"]) := by
  refine ⟨?_, ?_, ?_, ?_⟩
  · intro st m ext refId node pm regLoc loc hrefId hne hreg hin hpm hpmloc hextloc hrne hlne hneq
    have hbeq : (regLoc == loc) = false := by simp [hneq]
    unfold getParameterRef
    simp only [hrefId, Option.some_bind, hreg, if_neg hne, hin, hpm, hpmloc, hextloc,
      Option.isSome_some, Option.map_some, objectEquals_str, beq_self_eq_true, Bool.not_true,
      Bool.and_false, Bool.true_and, Bool.false_or, strTruthy, hbeq, Bool.not_false,
      Bool.and_true]
    rw [if_pos (by simp [objectEquals, jeq, hbeq, hlne])]
    simp [compactS, jAsStr, hrne, hlne]
  · intro st m ext refId node pm loc regName key hrefId hne hreg hin hname hpm hpmloc hpmname
      hextloc hextname hrne hkne hneq
    have hbeq : (regName == key) = false := by simp [hneq]
    unfold getParameterRef
    simp only [hrefId, Option.some_bind, hreg, if_neg hne, hin, hname, hpm, hpmloc, hpmname,
      hextloc, hextname, Option.isSome_some, Option.map_some, objectEquals_str,
      beq_self_eq_true, Bool.not_true, Bool.and_false, Bool.true_and, Bool.false_or, strTruthy,
      hbeq, Bool.not_false, Bool.and_true]
    rw [if_neg (by simp [objectEquals, jeq]), if_pos (by simp [objectEquals, jeq, hbeq, hkne])]
    simp [compactS, jAsStr, hrne, hkne]
  · intro st key schema location e h
    unfold generateInlineParameterOne
    simp only [h]
  · exact c8_doc_eval

/-- C8 witness: the conflict theorem applied at the fixtures — a `query`
usage of the `header`-registered `p` raises the `in` conflict, a key `q`
usage at `header` raises the `name` conflict, and
`generateInlineParameterOne` surfaces the former. -/
theorem c8_parameter_conflicts_witness :
    getParameterRef c8St c8Meta { loc := some "query", name := some "p" } =
      Except.error (GenError.conflict "Conflicting location for parameter p" "in"
        ["header", "query", "header"]) ∧
    getParameterRef c8St c8Meta { loc := some "header", name := some "q" } =
      Except.error (GenError.conflict "Conflicting names for parameter" "name"
        ["p", "q", "p"]) ∧
    generateInlineParameterOne c8St "p" c8ParamSchema "query" =
      Except.error (GenError.conflict "Conflicting location for parameter p" "in"
        ["header", "query", "header"]) := by
  have h1 := c8_parameter_conflicts.1 c8St c8Meta { loc := some "query", name := some "p" }
    "P" c8RegNode { name := some "p", loc := some "header" } "header" "query"
    rfl (by decide) (by simp [c8St, alookup_cons]) (by simp [c8RegNode, Json.get, Json.fields,
      alookup_cons]) rfl rfl rfl (by decide) (by decide) (by decide)
  have h2 := c8_parameter_conflicts.2.1 c8St c8Meta { loc := some "header", name := some "q" }
    "P" c8RegNode { name := some "p", loc := some "header" } "header" "p" "q"
    rfl (by decide) (by simp [c8St, alookup_cons]) (by simp [c8RegNode, Json.get, Json.fields,
      alookup_cons]) (by simp [c8RegNode, Json.get, Json.fields, alookup_cons]) rfl rfl rfl
    rfl rfl (by decide) (by decide) (by decide)
  have h3 := c8_parameter_conflicts.2.2.1 c8St "p" c8ParamSchema "query"
    (GenError.conflict "Conflicting location for parameter p" "in"
      ["header", "query", "header"])
  refine ⟨?_, ?_, ?_⟩
  · rw [h1]
    rfl
  · exact h2
  · refine h3 ?_
    have hm : getMetadata c8ParamSchema = c8Meta := by
      simp [getMetadata, c8ParamSchema, c8Meta, unwrapChained, Zod.defc, Option.orElse]
    rw [hm, h1]
    rfl

end OpenapiGenerator
